import Mathlib

/-!
Verification development for the streaming TCP flow-reconstruction engine
(`tcp_data_loader_streaming.py`).  The Python functions are shallowly embedded:
dictionaries become structures, the packet-by-packet `for` loop with `break`
becomes a fold with an explicit break flag, Python truthiness of optional
fields is modelled explicitly, and Python `dict`s become insertion-ordered
association lists.  Machine arithmetic is exact (`Int`/`Nat`/`ℚ`): the two
places where the source divides by 1,000,000 (timeout seconds) or by the bin
count are embedded through exact integer comparisons that are proved
equivalent to the rational forms.
-/

namespace TCP

/-- A normalized packet record as built by `process_tcp_data_chunked`
(keys: timestamp, src_ip, dst_ip, src_port, dst_port, flags, seq_num,
ack_num, length, protocol).  `flag_type` and `seg_len` are not modelled:
`flag_type` is never read by the flow engine, and the records built by the
driver never carry a `seg_len` key (so `packet.get('seg_len')` is `None`). -/
structure Packet where
  timestamp : Int
  src_ip : String
  dst_ip : String
  src_port : Int
  dst_port : Int
  flags : Nat
  seq_num : Int
  ack_num : Int
  length : Int
  protocol : Option Int := none
deriving DecidableEq

/-- One entry of a phase list: `{'packet': .., 'phase': .., 'description': ..}`. -/
structure PhaseEntry where
  packet : Packet
  phase : String
  description : String
deriving DecidableEq

/-- The `flow['phases']` sub-dictionary. -/
structure Phases where
  establishment : List PhaseEntry
  dataTransfer : List PhaseEntry
  closing : List PhaseEntry
deriving DecidableEq

/-- The flow dictionary of `process_single_flow`.  `ongoing` and
`completed_by_timeout` are keys the source only adds later; they are modelled
as booleans that start out `false` (`flow.get('ongoing', False)` semantics). -/
structure Flow where
  id : String
  key : String
  initiator : Option String
  responder : Option String
  initiatorPort : Option Int
  responderPort : Option Int
  state : String
  phases : Phases
  establishmentComplete : Bool
  dataTransferStarted : Bool
  closingStarted : Bool
  closeType : Option String
  startTime : Int
  endTime : Int
  totalPackets : Nat
  totalBytes : Int
  invalidReason : Option String
  expectedSeqNum : Option Int
  expectedAckNum : Option Int
  invalidPacket : Option Packet
  synPacket : Option Packet
  synAckPacket : Option Packet
  packets : List Packet
  ongoing : Bool
  completed_by_timeout : Bool
deriving DecidableEq

/-- Python truthiness of an optional string (`None` and `''` are falsy). -/
def truthyStr : Option String → Bool
  | none => false
  | some s => !(s == "")

/-- Python truthiness of an optional integer (`None` and `0` are falsy). -/
def truthyInt : Option Int → Bool
  | none => false
  | some n => !(n == 0)

/-- Python `(p.get('length') or 0)`: the `length` key is always present in the
records the driver builds, so only a stored `0` is replaced by `0`. -/
def lengthOrZero (p : Packet) : Int := if p.length == 0 then 0 else p.length

/-- Lines 172-187: SYN packet (connection initiation). -/
def stepSyn (flow : Flow) (packet : Packet) : Flow × Bool :=
  if !truthyStr flow.initiator then
    ({ flow with
        initiator := some packet.src_ip
        responder := some packet.dst_ip
        initiatorPort := some packet.src_port
        responderPort := some packet.dst_port
        state := "establishing"
        synPacket := some packet
        expectedAckNum := some (packet.seq_num + 1)
        phases := { flow.phases with
          establishment := flow.phases.establishment ++
            [⟨packet, "syn", "Connection Request"⟩] } }, false)
  else (flow, false)

/-- Lines 188-213: SYN+ACK packet (connection acceptance), validating the
acknowledgment number while establishing; `true` means `break`. -/
def stepSynAck (flow : Flow) (packet : Packet) : Flow × Bool :=
  if flow.state == "establishing" && flow.synPacket.isSome then
    if some packet.ack_num == flow.expectedAckNum then
      ({ flow with
          synAckPacket := some packet
          expectedSeqNum := some (packet.seq_num + 1)
          phases := { flow.phases with
            establishment := flow.phases.establishment ++
              [⟨packet, "syn_ack", "Connection Acceptance"⟩] } }, false)
    else
      ({ flow with
          state := "invalid"
          invalidReason := some "invalid_synack"
          invalidPacket := some packet
          closeType := some "invalid" }, true)
  else if !flow.synAckPacket.isSome then
    ({ flow with
        phases := { flow.phases with
          establishment := flow.phases.establishment ++
            [⟨packet, "syn_ack", "Connection Acceptance"⟩] }
        synAckPacket := some packet }, false)
  else (flow, false)

/-- Lines 214-240: pure ACK while establishing (handshake completion);
`true` means `break`. -/
def stepPureAck (flow : Flow) (packet : Packet) : Flow × Bool :=
  if flow.synAckPacket.isSome && truthyInt flow.expectedSeqNum then
    if (some packet.ack_num == flow.expectedSeqNum) &&
       (some packet.seq_num == flow.expectedAckNum) then
      ({ flow with
          phases := { flow.phases with
            establishment := flow.phases.establishment ++
              [⟨packet, "ack", "Connection Established"⟩] }
          establishmentComplete := true
          state := "established" }, false)
    else
      ({ flow with
          state := "invalid"
          invalidReason := some "invalid_ack"
          invalidPacket := some packet
          closeType := some "invalid" }, true)
  else if !flow.establishmentComplete then
    ({ flow with
        phases := { flow.phases with
          establishment := flow.phases.establishment ++
            [⟨packet, "ack", "Connection Established"⟩] }
        establishmentComplete := true
        state := "established" }, false)
  else (flow, false)

/-- Lines 241-251: ACK with payload after establishment (data transfer). -/
def stepData (flow : Flow) (packet : Packet) : Flow × Bool :=
  let flow :=
    if !flow.dataTransferStarted then
      { flow with dataTransferStarted := true, state := "data_transfer" }
    else flow
  ({ flow with
      phases := { flow.phases with
        dataTransfer := flow.phases.dataTransfer ++
          [⟨packet, "data", "Data Transfer"⟩] } }, false)

/-- Lines 252-262: FIN packet (graceful close initiation). -/
def stepFin (flow : Flow) (packet : Packet) : Flow × Bool :=
  let flow :=
    if !flow.closingStarted then
      { flow with closingStarted := true, state := "closing", closeType := some "graceful" }
    else flow
  ({ flow with
      phases := { flow.phases with
        closing := flow.phases.closing ++ [⟨packet, "fin", "Close Request"⟩] } }, false)

/-- Lines 263-277: RST packet (abortive close, or invalid during handshake). -/
def stepRst (flow : Flow) (packet : Packet) : Flow × Bool :=
  let flow :=
    if flow.state == "establishing" then
      { flow with
          invalidReason := some "rst_during_handshake"
          state := "invalid"
          closeType := some "invalid" }
    else
      { flow with state := "aborted", closeType := some "abortive" }
  ({ flow with
      invalidPacket := some packet
      phases := { flow.phases with
        closing := flow.phases.closing ++ [⟨packet, "rst", "Connection Aborted"⟩] } }, false)

/-- Lines 278-294: other ACK packets after establishment (closing
acknowledgment or data acknowledgment). -/
def stepOtherAck (flow : Flow) (packet : Packet) : Flow × Bool :=
  if flow.closingStarted then
    ({ flow with
        phases := { flow.phases with
          closing := flow.phases.closing ++
            [⟨packet, "ack_close", "Close Acknowledgment"⟩] } }, false)
  else
    let flow :=
      if !flow.dataTransferStarted then
        { flow with dataTransferStarted := true, state := "data_transfer" }
      else flow
    ({ flow with
        phases := { flow.phases with
          dataTransfer := flow.phases.dataTransfer ++
            [⟨packet, "ack_data", "Data Acknowledgment"⟩] } }, false)

/-- One iteration of the packet loop of `process_single_flow`
(lines 156-294): append the packet to the stored list, skip processing when
already invalid, and dispatch on the flag bits through the `elif` chain.
Returns the updated flow and `true` iff the iteration executed `break`. -/
def flowStep (flow0 : Flow) (packet : Packet) : Flow × Bool :=
  let syn := packet.flags &&& 0x02 != 0
  let ack := packet.flags &&& 0x10 != 0
  let fin := packet.flags &&& 0x01 != 0
  let rst := packet.flags &&& 0x04 != 0
  let psh := packet.flags &&& 0x08 != 0
  let flow := { flow0 with packets := flow0.packets ++ [packet] }
  if flow.state == "invalid" then (flow, false)
  else if syn && !ack && !rst then stepSyn flow packet
  else if syn && ack && !rst then stepSynAck flow packet
  else if ack && !syn && !fin && !rst && !psh && (flow.state == "establishing") then
    stepPureAck flow packet
  else if ack && !syn && !fin && !rst && flow.establishmentComplete &&
          (!(packet.length == 0) && decide (0 < packet.length)) then
    stepData flow packet
  else if fin && !rst then stepFin flow packet
  else if rst then stepRst flow packet
  else if ack && !syn && !fin && !rst && flow.establishmentComplete then
    stepOtherAck flow packet
  else (flow, false)

/-- The packet loop of `process_single_flow`: a `for` loop that may `break`. -/
def flowLoop (flow : Flow) : List Packet → Flow
  | [] => flow
  | p :: ps =>
    let r := flowStep flow p
    if r.2 then r.1 else flowLoop r.1 ps

/-- Post-loop finalization of `process_single_flow` (lines 296-322). -/
def finalizeFlow (flow0 : Flow) : Flow :=
  let flow :=
    if flow0.state == "establishing" then
      if !flow0.synPacket.isSome then
        { flow0 with
            state := "invalid", invalidReason := some "incomplete_no_syn",
            closeType := some "invalid" }
      else if !flow0.synAckPacket.isSome then
        { flow0 with
            state := "invalid", invalidReason := some "incomplete_no_synack",
            closeType := some "invalid" }
      else if !flow0.establishmentComplete then
        { flow0 with
            state := "invalid", invalidReason := some "incomplete_no_ack",
            closeType := some "invalid" }
      else flow0
    else if flow0.state == "closing" then
      { flow0 with state := "closed" }
    else flow0
  if (!(flow.state == "invalid") && !(flow.state == "closed") && !(flow.state == "aborted")) &&
     !truthyStr flow.closeType &&
     (flow.establishmentComplete || flow.dataTransferStarted) then
    { flow with state := "ongoing", ongoing := true, closeType := some "open" }
  else flow

/-- Ordering relation used by `connection_packets.sort(key=lambda a: a['timestamp'])`. -/
def TsLe (a b : Packet) : Prop := a.timestamp ≤ b.timestamp

instance : DecidableRel TsLe := fun a b => inferInstanceAs (Decidable (a.timestamp ≤ b.timestamp))

instance : IsTotal Packet TsLe := ⟨fun a b => le_total a.timestamp b.timestamp⟩

instance : IsTrans Packet TsLe := ⟨fun _ _ _ h h' => le_trans h h'⟩

/-- Stable sort by timestamp (Python's `list.sort` is stable; insertion sort
with a non-strict comparison is the same stable reordering). -/
def sortPackets (l : List Packet) : List Packet := List.insertionSort TsLe l

/-- The flow dictionary as initialized at lines 119-153 (including the
`startTime`/`endTime`/`totalPackets`/`totalBytes` fields computed from the
full sorted packet list before the loop runs). -/
def initFlow (connection_key flow_id : String) (sortedPackets : List Packet) : Flow where
  id := flow_id
  key := connection_key
  initiator := none
  responder := none
  initiatorPort := none
  responderPort := none
  state := "new"
  phases := ⟨[], [], []⟩
  establishmentComplete := false
  dataTransferStarted := false
  closingStarted := false
  closeType := none
  startTime := (sortedPackets.head?.map Packet.timestamp).getD 0
  endTime := (sortedPackets.getLast?.map Packet.timestamp).getD 0
  totalPackets := sortedPackets.length
  totalBytes := (sortedPackets.map lengthOrZero).sum
  invalidReason := none
  expectedSeqNum := none
  expectedAckNum := none
  invalidPacket := none
  synPacket := none
  synAckPacket := none
  packets := []
  ongoing := false
  completed_by_timeout := false

/-- `process_single_flow(connection_key, connection_packets, flow_id)`:
sort the connection's packets by timestamp, run the TCP state machine over
them, then finalize the flow state. -/
def process_single_flow (connection_key flow_id : String)
    (connection_packets : List Packet) : Flow :=
  let sorted := sortPackets connection_packets
  finalizeFlow (flowLoop (initFlow connection_key flow_id sorted) sorted)

/-! ## Connection keying and the incremental flow tracker -/

/-- Lexicographic comparison of char lists by code point: the embedding of
Python's `<` on strings (which compares code points left to right). -/
def listLtChars : List Char → List Char → Bool
  | [], [] => false
  | [], _ :: _ => true
  | _ :: _, [] => false
  | a :: as, b :: bs =>
    if a.toNat < b.toNat then true
    else if b.toNat < a.toNat then false
    else listLtChars as bs

/-- Python string `<`, on the underlying character data. -/
def strLt (a b : String) : Bool := listLtChars a.data b.data

/-- The bidirectional connection key of lines 399-401: the lexicographically
smaller of `f"{s_ip}:{s_port}-{d_ip}:{d_port}"` and the reversed form. -/
def connKeyOf (s_ip : String) (s_port : Int) (d_ip : String) (d_port : Int) : String :=
  let connection_a := s_ip ++ ":" ++ toString s_port ++ "-" ++ d_ip ++ ":" ++ toString d_port
  let connection_b := d_ip ++ ":" ++ toString d_port ++ "-" ++ s_ip ++ ":" ++ toString s_port
  if strLt connection_a connection_b then connection_a else connection_b

/-- Connection key of a packet. -/
def connKey (p : Packet) : String := connKeyOf p.src_ip p.src_port p.dst_ip p.dst_port

/-- Guard of line 398: a packet joins a connection only when both ports and
both addresses are truthy (nonzero ports, nonempty address strings). -/
def guardPass (p : Packet) : Bool :=
  !(p.src_port == 0) && !(p.dst_port == 0) && !(p.src_ip == "") && !(p.dst_ip == "")

/-- `f"flow_{flow_counter:06d}"`. -/
def flowIdStr (n : Nat) : String :=
  let s := toString n
  "flow_" ++ String.mk (List.replicate (6 - s.length) '0') ++ s

/-- A connection-table entry (lines 406-411). -/
structure ConnEntry where
  packets : List Packet
  flow_id : String
  last_packet_time : Int
  has_fin_or_rst : Bool
deriving DecidableEq

/-- The connection table: a Python `dict` preserving insertion order. -/
abbrev ConnMap := List (String × ConnEntry)

/-- `connection_map[key]` lookup (`key in connection_map` is `isSome`). -/
def lookupEntry : ConnMap → String → Option ConnEntry
  | [], _ => none
  | (k', e) :: rest, k => if k' == k then some e else lookupEntry rest k

/-- `connection_map[key] = entry`: replace in place, or append a new key. -/
def setEntry : ConnMap → String → ConnEntry → ConnMap
  | [], k, e => [(k, e)]
  | (k', e') :: rest, k, e =>
    if k' == k then (k, e) :: rest else (k', e') :: setEntry rest k e

/-- `del connection_map[key]`. -/
def eraseKey : ConnMap → String → ConnMap
  | [], _ => []
  | (k', e) :: rest, k => if k' == k then rest else (k', e) :: eraseKey rest k

/-- The removal loop of lines 456-457. -/
def eraseKeys (m : ConnMap) (ks : List String) : ConnMap := ks.foldl eraseKey m

/-- The common per-packet update of lines 413-420: append the packet, refresh
`last_packet_time`, and latch `has_fin_or_rst` on a FIN or RST flag. -/
def updateConn (e : ConnEntry) (p : Packet) : ConnEntry :=
  { e with
      packets := e.packets ++ [p]
      last_packet_time := p.timestamp
      has_fin_or_rst := e.has_fin_or_rst || ((p.flags &&& 0x01 != 0) || (p.flags &&& 0x04 != 0)) }

/-- The grouping step of lines 398-420 for one packet, threading the
connection table and the flow counter. -/
def addPacket (st : ConnMap × Nat) (p : Packet) : ConnMap × Nat :=
  if !guardPass p then st
  else
    let k := connKey p
    match lookupEntry st.1 k with
    | none =>
      let counter := st.2 + 1
      let e0 : ConnEntry :=
        { packets := [], flow_id := flowIdStr counter,
          last_packet_time := p.timestamp, has_fin_or_rst := false }
      (setEntry st.1 k (updateConn e0 p), counter)
    | some e => (setEntry st.1 k (updateConn e p), st.2)

/-- Grouping a whole chunk (the loop at line 385). -/
def groupChunk (chunk : List Packet) (m : ConnMap) (counter : Nat) : ConnMap × Nat :=
  chunk.foldl addPacket (m, counter)

/-- `max(r['timestamp'] for r in chunk_records) if chunk_records else 0`. -/
def chunkLatest : List Packet → Int
  | [] => 0
  | p :: ps => ps.foldl (fun acc q => max acc q.timestamp) p.timestamp

/-- Line 436: `inactive_seconds = time_diff_microseconds / 1_000_000`, as an
exact rational (idealizing Python's float division). -/
def inactive_seconds (latest last : Int) : ℚ := ((latest - last : Int) : ℚ) / 1000000

/-- Line 439: `has_timed_out = inactive_seconds >= flow_timeout_seconds`.
Embedded over the integers; `hasTimedOut_iff` proves this equal to the
rational comparison the source performs. -/
def hasTimedOut (latest last timeout : Int) : Bool :=
  decide (timeout * 1000000 ≤ latest - last)

/-- Line 441: `is_complete = has_explicit_close or has_timed_out`. -/
def entryComplete (latest timeout : Int) (e : ConnEntry) : Bool :=
  e.has_fin_or_rst || hasTimedOut latest e.last_packet_time timeout

/-- Lines 447-449: tag flows completed by timeout without an explicit close. -/
def tagTimeout (latest timeout : Int) (e : ConnEntry) (flow : Flow) : Flow :=
  if hasTimedOut latest e.last_packet_time timeout && !e.has_fin_or_rst then
    { flow with completed_by_timeout := true }
  else flow

/-- The completion scan of lines 433-453: walk the connection table in
insertion order, emit a finalized (and possibly tagged) flow for every
complete entry, and record its key for removal. -/
def scanLoop (latest timeout : Int) : ConnMap → List Flow × List String
  | [] => ([], [])
  | (k, e) :: rest =>
    let r := scanLoop latest timeout rest
    if entryComplete latest timeout e then
      (tagTimeout latest timeout e (process_single_flow k e.flow_id e.packets) :: r.1,
       k :: r.2)
    else r

/-- `detect_tcp_flows_incremental` restricted to the flow-tracking state (the
aggregation maps are independent accumulators not needed by the claims):
group the chunk's packets into the connection table, then run the completion
scan with the chunk's maximum timestamp as the clock.  Returns the completed
flows, the updated table and the updated flow counter. -/
def detect_tcp_flows_incremental (chunk : List Packet) (m : ConnMap) (counter : Nat)
    (flow_timeout_seconds : Int) : List Flow × ConnMap × Nat :=
  let g := groupChunk chunk m counter
  let latest := chunkLatest chunk
  let s := scanLoop latest flow_timeout_seconds g.1
  (s.1, eraseKeys g.1 s.2, g.2)

/-- Line 1008 of the driver: a record is TCP when its protocol field is 6
(the string-protocol spelling is not modelled; records built by the driver
carry an integer or empty protocol). -/
def isTCP (p : Packet) : Bool := p.protocol == some 6

/-- One read-chunk iteration of `process_tcp_data_chunked` (lines 1008-1020),
restricted to flow tracking: filter the chunk to TCP packets and, when any
remain, run incremental flow detection. -/
def batchStep (timeout : Int) (st : List Flow × ConnMap × Nat) (chunk : List Packet) :
    List Flow × ConnMap × Nat :=
  let tcp := chunk.filter isTCP
  if tcp.isEmpty then st
  else
    let r := detect_tcp_flows_incremental tcp st.2.1 st.2.2 timeout
    (st.1 ++ r.1, r.2.1, r.2.2)

/-- The chunk loop of `process_tcp_data_chunked`, from the initial empty
state. -/
def runIncremental (timeout : Int) (batches : List (List Packet)) :
    List Flow × ConnMap × Nat :=
  batches.foldl (batchStep timeout) ([], [], 0)

/-- `process_tcp_data_chunked` end-to-end on a finite batched stream:
run every chunk, then force-complete all still-active connections
(lines 1050-1054) with the same state-machine call and no timeout tag. -/
def process_tcp_data_chunked (timeout : Int) (batches : List (List Packet)) : List Flow :=
  let r := runIncremental timeout batches
  r.1 ++ r.2.1.map (fun kv => process_single_flow kv.1 kv.2.flow_id kv.2.packets)

/-! ## Ingestion: per-field recovery (`_safe_int`) and timestamp cleaning -/

/-- The value of one CSV cell as the ingestion layer sees it: absent/NaN,
a non-numeric string, or a numeric value. -/
inductive Field where
  | missing
  | malformed (s : String)
  | num (n : Int)
deriving DecidableEq

/-- Whether `pd.to_numeric(..., errors='coerce')` yields a usable number. -/
def isNumericField : Field → Bool
  | .num _ => true
  | _ => false

/-- `_safe_int(val, default)`: NaN/None or an unparseable value falls back to
the default; a numeric value is converted with `int`. -/
def safe_int (v : Field) (default : Int) : Int :=
  match v with
  | .num n => n
  | _ => default

/-- One raw CSV row (the fields the record builder of lines 972-984 reads). -/
structure Row where
  timestamp : Field
  src_ip : String
  dst_ip : String
  src_port : Field
  dst_port : Field
  flags : Field
  seq_num : Field
  ack_num : Field
  length : Field
  protocol : Field
deriving DecidableEq

/-- Lines 944-947: coerce timestamps to numbers and drop every row whose
timestamp is not a finite number. -/
def cleanTimestamps (rows : List Row) : List Row :=
  rows.filter (fun r => isNumericField r.timestamp)

/-- Lines 963-984: build a packet record from a row, substituting the default
0 via `_safe_int` for each malformed numeric field (flags are a bitmask, so
their integer value is taken as a natural number). -/
def rowToRecord (r : Row) : Packet where
  timestamp := safe_int r.timestamp 0
  src_ip := r.src_ip
  dst_ip := r.dst_ip
  src_port := safe_int r.src_port 0
  dst_port := safe_int r.dst_port 0
  flags := (safe_int r.flags 0).toNat
  seq_num := safe_int r.seq_num 0
  ack_num := safe_int r.ack_num 0
  length := safe_int r.length 0
  protocol := match r.protocol with
    | .num n => some n
    | _ => none

/-- The records a read chunk contributes to the stream: timestamp cleaning
first (dropping rows), then per-field recovery. -/
def chunkRecords (rows : List Row) : List Packet :=
  (cleanTimestamps rows).map rowToRecord

/-! ## Time bins (`generate_time_bins`) -/

/-- The minimal `{'timestamp': ts}` records handed to `generate_time_bins`. -/
structure TsRecord where
  timestamp : Int
deriving DecidableEq

/-- One output bin `{'bin': i, 'start': .., 'end': .., 'count': ..}`
(`stop` models the `end` key, a Lean keyword). -/
structure TimeBin where
  bin : Nat
  start : Int
  stop : Int
  count : Nat
deriving DecidableEq

/-- `min(timestamps)` (0 on an empty list, unreached in the source). -/
def tsMinL : List Int → Int
  | [] => 0
  | t :: ts => ts.foldl min t

/-- `max(timestamps)`. -/
def tsMaxL : List Int → Int
  | [] => 0
  | t :: ts => ts.foldl max t

/-- The exact rational left boundary of bin `i`:
`min_ts + i * ((max_ts - min_ts) / num_bins)`. -/
def binStart (min_ts max_ts : Int) (nb i : Nat) : ℚ :=
  (min_ts : ℚ) + (i : ℚ) * (((max_ts - min_ts : Int) : ℚ) / (nb : ℚ))

/-- Membership test `bin_start <= ts < bin_end` of line 830, embedded in
exact integer arithmetic; `binContains_iff` proves it equal to the rational
interval test the source performs. -/
def binContains (min_ts max_ts : Int) (nb i : Nat) (t : Int) : Bool :=
  decide ((i : Int) * (max_ts - min_ts) ≤ (t - min_ts) * (nb : Int)) &&
  decide ((t - min_ts) * (nb : Int) < ((i : Int) + 1) * (max_ts - min_ts))

/-- Python `int(...)` truncation toward zero on an exact rational. -/
def truncQ (q : ℚ) : Int := if 0 ≤ q then ⌊q⌋ else ⌈q⌉

/-- `generate_time_bins(records, num_bins)`. -/
def generate_time_bins (records : List TsRecord) (num_bins : Nat) : List TimeBin :=
  if records.isEmpty then []
  else
    let timestamps := records.map TsRecord.timestamp
    let min_ts := tsMinL timestamps
    let max_ts := tsMaxL timestamps
    if min_ts == max_ts then [⟨0, min_ts, max_ts, records.length⟩]
    else
      (List.range num_bins).map fun i =>
        ⟨i, truncQ (binStart min_ts max_ts num_bins i),
         truncQ (binStart min_ts max_ts num_bins (i + 1)),
         timestamps.countP (fun t => binContains min_ts max_ts num_bins i t)⟩

/-! ## Helper lemmas: the state-machine loop -/

lemma stepSyn_fields (f : Flow) (p : Packet) :
    (stepSyn f p).1.totalPackets = f.totalPackets ∧
    (stepSyn f p).1.totalBytes = f.totalBytes ∧
    (stepSyn f p).1.completed_by_timeout = f.completed_by_timeout ∧
    (stepSyn f p).1.packets = f.packets ∧
    (stepSyn f p).2 = false := by
  unfold stepSyn; split <;> exact ⟨rfl, rfl, rfl, rfl, rfl⟩

lemma stepSynAck_fields (f : Flow) (p : Packet) :
    (stepSynAck f p).1.totalPackets = f.totalPackets ∧
    (stepSynAck f p).1.totalBytes = f.totalBytes ∧
    (stepSynAck f p).1.completed_by_timeout = f.completed_by_timeout ∧
    (stepSynAck f p).1.packets = f.packets := by
  unfold stepSynAck; repeat' split
  all_goals exact ⟨rfl, rfl, rfl, rfl⟩

lemma stepPureAck_fields (f : Flow) (p : Packet) :
    (stepPureAck f p).1.totalPackets = f.totalPackets ∧
    (stepPureAck f p).1.totalBytes = f.totalBytes ∧
    (stepPureAck f p).1.completed_by_timeout = f.completed_by_timeout ∧
    (stepPureAck f p).1.packets = f.packets := by
  unfold stepPureAck; repeat' split
  all_goals exact ⟨rfl, rfl, rfl, rfl⟩

lemma stepData_fields (f : Flow) (p : Packet) :
    (stepData f p).1.totalPackets = f.totalPackets ∧
    (stepData f p).1.totalBytes = f.totalBytes ∧
    (stepData f p).1.completed_by_timeout = f.completed_by_timeout ∧
    (stepData f p).1.packets = f.packets ∧
    (stepData f p).2 = false := by
  unfold stepData; simp only []; split <;> simp

lemma stepFin_fields (f : Flow) (p : Packet) :
    (stepFin f p).1.totalPackets = f.totalPackets ∧
    (stepFin f p).1.totalBytes = f.totalBytes ∧
    (stepFin f p).1.completed_by_timeout = f.completed_by_timeout ∧
    (stepFin f p).1.packets = f.packets ∧
    (stepFin f p).2 = false := by
  unfold stepFin; simp only []; split <;> simp

lemma stepRst_fields (f : Flow) (p : Packet) :
    (stepRst f p).1.totalPackets = f.totalPackets ∧
    (stepRst f p).1.totalBytes = f.totalBytes ∧
    (stepRst f p).1.completed_by_timeout = f.completed_by_timeout ∧
    (stepRst f p).1.packets = f.packets ∧
    (stepRst f p).2 = false := by
  unfold stepRst; simp only []; split <;> simp

lemma stepOtherAck_fields (f : Flow) (p : Packet) :
    (stepOtherAck f p).1.totalPackets = f.totalPackets ∧
    (stepOtherAck f p).1.totalBytes = f.totalBytes ∧
    (stepOtherAck f p).1.completed_by_timeout = f.completed_by_timeout ∧
    (stepOtherAck f p).1.packets = f.packets ∧
    (stepOtherAck f p).2 = false := by
  unfold stepOtherAck; simp only []; repeat' split
  all_goals simp

lemma stepSyn_snd (f : Flow) (p : Packet) : (stepSyn f p).2 = false :=
  (stepSyn_fields f p).2.2.2.2

lemma stepData_snd (f : Flow) (p : Packet) : (stepData f p).2 = false :=
  (stepData_fields f p).2.2.2.2

lemma stepFin_snd (f : Flow) (p : Packet) : (stepFin f p).2 = false :=
  (stepFin_fields f p).2.2.2.2

lemma stepRst_snd (f : Flow) (p : Packet) : (stepRst f p).2 = false :=
  (stepRst_fields f p).2.2.2.2

lemma stepOtherAck_snd (f : Flow) (p : Packet) : (stepOtherAck f p).2 = false :=
  (stepOtherAck_fields f p).2.2.2.2

lemma stepSynAck_break (f : Flow) (p : Packet) (h : (stepSynAck f p).2 = true) :
    (stepSynAck f p).1.state = "invalid" ∧
    (stepSynAck f p).1.invalidReason = some "invalid_synack" := by
  unfold stepSynAck at h ⊢
  split_ifs at h ⊢ <;> simp_all

lemma stepPureAck_break (f : Flow) (p : Packet) (h : (stepPureAck f p).2 = true) :
    (stepPureAck f p).1.state = "invalid" ∧
    (stepPureAck f p).1.invalidReason = some "invalid_ack" := by
  unfold stepPureAck at h ⊢
  split_ifs at h ⊢ <;> simp_all

lemma flowStep_fields (f : Flow) (p : Packet) :
    (flowStep f p).1.totalPackets = f.totalPackets ∧
    (flowStep f p).1.totalBytes = f.totalBytes ∧
    (flowStep f p).1.completed_by_timeout = f.completed_by_timeout ∧
    (flowStep f p).1.packets = f.packets ++ [p] := by
  unfold flowStep
  simp only []
  repeat' split
  all_goals
    first
      | exact ⟨rfl, rfl, rfl, rfl⟩
      | exact ⟨(stepSyn_fields _ _).1, (stepSyn_fields _ _).2.1,
               (stepSyn_fields _ _).2.2.1, (stepSyn_fields _ _).2.2.2.1⟩
      | exact ⟨(stepSynAck_fields _ _).1, (stepSynAck_fields _ _).2.1,
               (stepSynAck_fields _ _).2.2.1, (stepSynAck_fields _ _).2.2.2⟩
      | exact ⟨(stepPureAck_fields _ _).1, (stepPureAck_fields _ _).2.1,
               (stepPureAck_fields _ _).2.2.1, (stepPureAck_fields _ _).2.2.2⟩
      | exact ⟨(stepData_fields _ _).1, (stepData_fields _ _).2.1,
               (stepData_fields _ _).2.2.1, (stepData_fields _ _).2.2.2.1⟩
      | exact ⟨(stepFin_fields _ _).1, (stepFin_fields _ _).2.1,
               (stepFin_fields _ _).2.2.1, (stepFin_fields _ _).2.2.2.1⟩
      | exact ⟨(stepRst_fields _ _).1, (stepRst_fields _ _).2.1,
               (stepRst_fields _ _).2.2.1, (stepRst_fields _ _).2.2.2.1⟩
      | exact ⟨(stepOtherAck_fields _ _).1, (stepOtherAck_fields _ _).2.1,
               (stepOtherAck_fields _ _).2.2.1, (stepOtherAck_fields _ _).2.2.2.1⟩

lemma flowStep_break (f : Flow) (p : Packet) (h : (flowStep f p).2 = true) :
    (flowStep f p).1.state = "invalid" ∧
    ((flowStep f p).1.invalidReason = some "invalid_synack" ∨
     (flowStep f p).1.invalidReason = some "invalid_ack") := by
  unfold flowStep at h ⊢
  simp only [] at h ⊢
  split_ifs at h ⊢ <;>
    first
      | exact ⟨(stepSynAck_break _ _ h).1, Or.inl (stepSynAck_break _ _ h).2⟩
      | exact ⟨(stepPureAck_break _ _ h).1, Or.inr (stepPureAck_break _ _ h).2⟩
      | exact Bool.noConfusion h
      | (rw [stepSyn_snd] at h; exact Bool.noConfusion h)
      | (rw [stepData_snd] at h; exact Bool.noConfusion h)
      | (rw [stepFin_snd] at h; exact Bool.noConfusion h)
      | (rw [stepRst_snd] at h; exact Bool.noConfusion h)
      | (rw [stepOtherAck_snd] at h; exact Bool.noConfusion h)

lemma flowLoop_cons (f : Flow) (p : Packet) (ps : List Packet) :
    flowLoop f (p :: ps) =
      if (flowStep f p).2 then (flowStep f p).1 else flowLoop (flowStep f p).1 ps := rfl

lemma flowLoop_fields (ps : List Packet) : ∀ f : Flow,
    (flowLoop f ps).totalPackets = f.totalPackets ∧
    (flowLoop f ps).totalBytes = f.totalBytes ∧
    (flowLoop f ps).completed_by_timeout = f.completed_by_timeout := by
  induction ps with
  | nil => intro f; exact ⟨rfl, rfl, rfl⟩
  | cons p ps ih =>
    intro f
    obtain ⟨h1, h2, h3, -⟩ := flowStep_fields f p
    rw [flowLoop_cons]
    by_cases hb : (flowStep f p).2 = true
    · rw [if_pos hb]; exact ⟨h1, h2, h3⟩
    · rw [if_neg hb]
      obtain ⟨g1, g2, g3⟩ := ih (flowStep f p).1
      exact ⟨g1.trans h1, g2.trans h2, g3.trans h3⟩

/-- Either the loop ran to completion (appending every packet to the stored
list), or it broke out early, in which case the flow is `invalid` with one of
the two handshake-validation reasons. -/
lemma flowLoop_full_or_break (ps : List Packet) : ∀ f : Flow,
    (flowLoop f ps).packets = f.packets ++ ps ∨
    ((flowLoop f ps).state = "invalid" ∧
     ((flowLoop f ps).invalidReason = some "invalid_synack" ∨
      (flowLoop f ps).invalidReason = some "invalid_ack")) := by
  induction ps with
  | nil => intro f; left; simp [flowLoop]
  | cons p ps ih =>
    intro f
    obtain ⟨-, -, -, hpk⟩ := flowStep_fields f p
    rw [flowLoop_cons]
    by_cases hb : (flowStep f p).2 = true
    · rw [if_pos hb]
      exact Or.inr (flowStep_break f p hb)
    · rw [if_neg hb]
      rcases ih (flowStep f p).1 with h | h
      · left; rw [h, hpk]; simp
      · right; exact h

/-- The stored packet list of the loop result extends the initial one by some
prefix of the processed list. -/
lemma flowLoop_packets_decomp (ps : List Packet) : ∀ f : Flow,
    ∃ qs rest, ps = qs ++ rest ∧ (flowLoop f ps).packets = f.packets ++ qs := by
  induction ps with
  | nil => intro f; exact ⟨[], [], by simp, by simp [flowLoop]⟩
  | cons p ps ih =>
    intro f
    obtain ⟨-, -, -, hpk⟩ := flowStep_fields f p
    by_cases hb : (flowStep f p).2 = true
    · exact ⟨[p], ps, by simp, by rw [flowLoop_cons, if_pos hb]; exact hpk⟩
    · obtain ⟨qs, rest, hsplit, hpks⟩ := ih (flowStep f p).1
      refine ⟨p :: qs, rest, by simp [hsplit], ?_⟩
      rw [flowLoop_cons, if_neg hb, hpks, hpk]
      simp

/-- Splitting the loop at a point where no break has occurred. -/
lemma flowLoop_append (xs ys : List Packet) : ∀ f : Flow,
    (flowLoop f xs).state ≠ "invalid" →
    flowLoop f (xs ++ ys) = flowLoop (flowLoop f xs) ys := by
  induction xs with
  | nil => intro f _; rfl
  | cons x xs ih =>
    intro f h
    rw [flowLoop_cons] at h
    by_cases hb : (flowStep f x).2 = true
    · rw [if_pos hb] at h
      exact absurd (flowStep_break f x hb).1 h
    · rw [if_neg hb] at h
      show flowLoop f (x :: (xs ++ ys)) = _
      rw [flowLoop_cons, if_neg hb, flowLoop_cons, if_neg hb, ih _ h]

lemma finalizeFlow_fields (f : Flow) :
    (finalizeFlow f).totalPackets = f.totalPackets ∧
    (finalizeFlow f).totalBytes = f.totalBytes ∧
    (finalizeFlow f).completed_by_timeout = f.completed_by_timeout ∧
    (finalizeFlow f).packets = f.packets ∧
    (finalizeFlow f).phases = f.phases := by
  unfold finalizeFlow
  simp only []
  repeat' split
  all_goals exact ⟨rfl, rfl, rfl, rfl, rfl⟩

lemma finalizeFlow_of_invalid (f : Flow) (h : f.state = "invalid") :
    finalizeFlow f = f := by
  unfold finalizeFlow
  simp [h]

lemma process_totalPackets (k fid : String) (ps : List Packet) :
    (process_single_flow k fid ps).totalPackets = ps.length := by
  unfold process_single_flow
  dsimp only
  rw [(finalizeFlow_fields _).1, (flowLoop_fields _ _).1]
  exact (List.perm_insertionSort TsLe ps).length_eq

lemma process_totalBytes (k fid : String) (ps : List Packet) :
    (process_single_flow k fid ps).totalBytes = (ps.map lengthOrZero).sum := by
  unfold process_single_flow
  dsimp only
  rw [(finalizeFlow_fields _).2.1, (flowLoop_fields _ _).2.1]
  exact ((List.perm_insertionSort TsLe ps).map lengthOrZero).sum_eq

lemma process_completed_by_timeout (k fid : String) (ps : List Packet) :
    (process_single_flow k fid ps).completed_by_timeout = false := by
  unfold process_single_flow
  dsimp only
  rw [(finalizeFlow_fields _).2.2.1, (flowLoop_fields _ _).2.2]
  rfl

lemma tagTimeout_totalPackets (latest timeout : Int) (e : ConnEntry) (fl : Flow) :
    (tagTimeout latest timeout e fl).totalPackets = fl.totalPackets := by
  unfold tagTimeout
  split <;> rfl

lemma tagTimeout_cbt (latest timeout : Int) (e : ConnEntry) (fl : Flow)
    (h : fl.completed_by_timeout = false) :
    (tagTimeout latest timeout e fl).completed_by_timeout =
      (hasTimedOut latest e.last_packet_time timeout && !e.has_fin_or_rst) := by
  unfold tagTimeout
  split <;> simp_all

/-! ## Helper lemmas: string ordering and arithmetic bridges -/

lemma listLtChars_irrefl : ∀ l : List Char, listLtChars l l = false
  | [] => rfl
  | a :: as => by
    unfold listLtChars
    simp [listLtChars_irrefl as]

lemma listLtChars_asymm : ∀ a b : List Char,
    listLtChars a b = true → listLtChars b a = false
  | [], [], _ => rfl
  | [], _ :: _, _ => rfl
  | _ :: _, [], h => by simp [listLtChars] at h
  | a :: as, b :: bs, h => by
    unfold listLtChars at h ⊢
    rcases Nat.lt_trichotomy a.toNat b.toNat with hlt | heq | hgt
    · simp [hlt, Nat.lt_asymm hlt]
    · simp only [heq, lt_irrefl, if_false] at h ⊢
      exact listLtChars_asymm as bs h
    · simp [hgt, Nat.lt_asymm hgt] at h

lemma char_eq_of_toNat_eq {c d : Char} (h : c.toNat = d.toNat) : c = d := by
  have := congrArg Char.ofNat h
  rwa [Char.ofNat_toNat, Char.ofNat_toNat] at this

lemma listLtChars_antisymm : ∀ a b : List Char,
    listLtChars a b = false → listLtChars b a = false → a = b
  | [], [], _, _ => rfl
  | [], _ :: _, h, _ => by simp [listLtChars] at h
  | _ :: _, [], _, h => by simp [listLtChars] at h
  | a :: as, b :: bs, h, h' => by
    unfold listLtChars at h h'
    rcases Nat.lt_trichotomy a.toNat b.toNat with hlt | heq | hgt
    · simp [hlt] at h
    · simp only [heq, lt_irrefl, if_false] at h h'
      rw [char_eq_of_toNat_eq heq, listLtChars_antisymm as bs h h']
    · simp [hgt] at h'

lemma strLt_asymm (a b : String) (h : strLt a b = true) : strLt b a = false :=
  listLtChars_asymm a.data b.data h

lemma strLt_irrefl (a : String) : strLt a a = false :=
  listLtChars_irrefl a.data

lemma strLt_antisymm (a b : String) (h : strLt a b = false) (h' : strLt b a = false) :
    a = b := by
  cases a; cases b
  exact congrArg String.mk (listLtChars_antisymm _ _ h h')

/-- `has_timed_out` as computed by the source: the integer comparison embeds
the exact rational comparison `flow_timeout_seconds ≤ inactive_seconds`. -/
lemma hasTimedOut_iff (latest last timeout : Int) :
    hasTimedOut latest last timeout = true ↔
      (timeout : ℚ) ≤ inactive_seconds latest last := by
  unfold hasTimedOut inactive_seconds
  rw [decide_eq_true_iff, le_div_iff₀ (by norm_num : (0:ℚ) < 1000000)]
  constructor <;> intro h <;> exact_mod_cast h

/-- The integer bin-membership test is the rational interval test
`bin_start <= ts < bin_end` that the source performs. -/
lemma binContains_iff (min_ts max_ts : Int) (nb i : Nat) (hnb : 0 < nb) (t : Int) :
    binContains min_ts max_ts nb i t = true ↔
      (binStart min_ts max_ts nb i ≤ (t : ℚ) ∧
       (t : ℚ) < binStart min_ts max_ts nb (i + 1)) := by
  have hq : (0:ℚ) < (nb:ℚ) := by exact_mod_cast hnb
  have key : ∀ j : Nat,
      (binStart min_ts max_ts nb j ≤ (t : ℚ)) ↔
        ((j : Int) * (max_ts - min_ts) ≤ (t - min_ts) * (nb : Int)) := by
    intro j
    unfold binStart
    rw [add_comm, ← le_sub_iff_add_le, ← mul_div_assoc, div_le_iff₀ hq]
    constructor <;> intro h <;> exact_mod_cast h
  have key' : ∀ j : Nat,
      ((t : ℚ) < binStart min_ts max_ts nb j) ↔
        ((t - min_ts) * (nb : Int) < (j : Int) * (max_ts - min_ts)) := by
    intro j
    unfold binStart
    rw [add_comm, ← sub_lt_iff_lt_add, ← mul_div_assoc, lt_div_iff₀ hq]
    constructor <;> intro h <;> exact_mod_cast h
  unfold binContains
  rw [Bool.and_eq_true, decide_eq_true_iff, decide_eq_true_iff, key, key' (i + 1)]
  have : ((i + 1 : Nat) : Int) = (i : Int) + 1 := by push_cast; ring
  rw [this]

/-! ## Helper lemmas: the connection table and the completion scan -/

lemma lookupEntry_none_iff : ∀ (m : ConnMap) (k : String),
    lookupEntry m k = none ↔ k ∉ m.map Prod.fst
  | [], k => by simp [lookupEntry]
  | (k', e) :: rest, k => by
    unfold lookupEntry
    by_cases h : k' = k
    · simp [h]
    · have : (k' == k) = false := by simpa using h
      simp [this, lookupEntry_none_iff rest k, h, Ne.symm h]

lemma setEntry_of_none : ∀ (m : ConnMap) (k : String) (e : ConnEntry),
    lookupEntry m k = none → setEntry m k e = m ++ [(k, e)]
  | [], _, _, _ => rfl
  | (k', e') :: rest, k, e, h => by
    unfold lookupEntry at h
    unfold setEntry
    by_cases hk : (k' == k) = true
    · simp [hk] at h
    · have hk' : (k' == k) = false := by simpa using hk
      simp only [hk', Bool.false_eq_true, if_false]
      rw [setEntry_of_none rest k e (by simpa [hk'] using h)]
      simp

lemma setEntry_decomp : ∀ (m : ConnMap) (k : String) (e e' : ConnEntry),
    lookupEntry m k = some e →
    ∃ m1 m2, m = m1 ++ (k, e) :: m2 ∧ setEntry m k e' = m1 ++ (k, e') :: m2
  | [], k, e, e', h => by simp [lookupEntry] at h
  | (k', e'') :: rest, k, e, e', h => by
    unfold lookupEntry at h
    unfold setEntry
    by_cases hk : (k' == k) = true
    · have hkk : k' = k := by simpa using hk
      simp only [hk, if_true] at h ⊢
      exact ⟨[], rest, by simp [hkk, ← Option.some.injEq _ _ |>.mp h], by simp⟩
    · have hk' : (k' == k) = false := by simpa using hk
      simp only [hk', if_false] at h ⊢
      obtain ⟨m1, m2, hm, hs⟩ := setEntry_decomp rest k e e' h
      exact ⟨(k', e'') :: m1, m2, by simp [hm], by simp [hs]⟩

lemma mem_key_unique : ∀ (m : ConnMap), (m.map Prod.fst).Nodup →
    ∀ a b : String × ConnEntry, a ∈ m → b ∈ m → a.1 = b.1 → a = b
  | [], _, a, b, ha, _, _ => by simp at ha
  | x :: rest, h, a, b, ha, hb, hk => by
    simp only [List.map_cons, List.nodup_cons] at h
    rcases List.mem_cons.mp ha with rfl | ha' <;>
      rcases List.mem_cons.mp hb with rfl | hb'
    · rfl
    · exact absurd (hk ▸ List.mem_map_of_mem Prod.fst hb') h.1
    · exact absurd (hk ▸ List.mem_map_of_mem Prod.fst ha') h.1
    · exact mem_key_unique rest h.2 a b ha' hb' hk

lemma eraseKey_of_nodup : ∀ (m : ConnMap) (k : String), (m.map Prod.fst).Nodup →
    eraseKey m k = m.filter (fun kv => !(kv.1 == k))
  | [], _, _ => rfl
  | (k', e) :: rest, k, h => by
    simp only [List.map_cons, List.nodup_cons] at h
    unfold eraseKey
    by_cases hk : (k' == k) = true
    · have hkk : k' = k := by simpa using hk
      rw [if_pos hk, List.filter_cons]
      simp only [hk, Bool.not_true, Bool.false_eq_true, if_false]
      symm
      apply List.filter_eq_self.mpr
      intro a ha
      have : a.1 ≠ k := by
        intro habs
        have hm := List.mem_map_of_mem Prod.fst ha
        rw [habs] at hm
        exact h.1 (hkk ▸ hm)
      simpa using this
    · have hk' : (k' == k) = false := by simpa using hk
      rw [if_neg (by simp [hk']), List.filter_cons]
      simp only [hk', Bool.not_false, if_true]
      rw [eraseKey_of_nodup rest k h.2]

lemma eraseKey_keys_sublist (m : ConnMap) (k : String) (h : (m.map Prod.fst).Nodup) :
    ((eraseKey m k).map Prod.fst).Sublist (m.map Prod.fst) := by
  rw [eraseKey_of_nodup m k h]
  exact (List.filter_sublist m).map Prod.fst

lemma eraseKeys_filter : ∀ (ks : List String) (m : ConnMap), (m.map Prod.fst).Nodup →
    eraseKeys m ks = m.filter (fun kv => !(ks.contains kv.1))
  | [], m, _ => by
    unfold eraseKeys
    simp [List.filter_eq_self]
  | k :: ks, m, h => by
    have h2 : ((eraseKey m k).map Prod.fst).Nodup :=
      (eraseKey_keys_sublist m k h).nodup h
    have : eraseKeys m (k :: ks) = eraseKeys (eraseKey m k) ks := rfl
    rw [this, eraseKeys_filter ks _ h2, eraseKey_of_nodup m k h, List.filter_filter]
    apply List.filter_congr
    intro a _
    have hcc : List.contains (k :: ks) a.1 = ((a.1 == k) || List.contains ks a.1) := by
      by_cases hx : a.1 = k <;> simp [List.contains_cons, hx]
    rw [hcc]
    cases hx : (a.1 == k) <;> cases hy : List.contains ks a.1 <;> rfl

lemma scanLoop_flows (latest timeout : Int) : ∀ m : ConnMap,
    (scanLoop latest timeout m).1 =
      (m.filter (fun kv => entryComplete latest timeout kv.2)).map
        (fun kv => tagTimeout latest timeout kv.2
          (process_single_flow kv.1 kv.2.flow_id kv.2.packets))
  | [] => rfl
  | (k, e) :: rest => by
    unfold scanLoop
    by_cases hc : entryComplete latest timeout e = true
    · simp only [hc, if_true, List.filter_cons, List.map_cons]
      rw [scanLoop_flows latest timeout rest]
    · have hc' : entryComplete latest timeout e = false := by simpa using hc
      simp only [hc', Bool.false_eq_true, if_false, List.filter_cons]
      rw [scanLoop_flows latest timeout rest]

lemma scanLoop_keys (latest timeout : Int) : ∀ m : ConnMap,
    (scanLoop latest timeout m).2 =
      (m.filter (fun kv => entryComplete latest timeout kv.2)).map Prod.fst
  | [] => rfl
  | (k, e) :: rest => by
    unfold scanLoop
    by_cases hc : entryComplete latest timeout e = true
    · simp only [hc, if_true, List.filter_cons, List.map_cons]
      rw [scanLoop_keys latest timeout rest]
    · have hc' : entryComplete latest timeout e = false := by simpa using hc
      simp only [hc', Bool.false_eq_true, if_false, List.filter_cons]
      rw [scanLoop_keys latest timeout rest]

/-- Removing the scan's collected keys retains exactly the incomplete
entries (requires the dict invariant: keys are unique). -/
lemma eraseKeys_scan (latest timeout : Int) (m : ConnMap)
    (h : (m.map Prod.fst).Nodup) :
    eraseKeys m (scanLoop latest timeout m).2 =
      m.filter (fun kv => !(entryComplete latest timeout kv.2)) := by
  rw [scanLoop_keys, eraseKeys_filter _ _ h]
  apply List.filter_congr
  intro kv hkv
  congr 1
  by_cases hc : entryComplete latest timeout kv.2 = true
  · rw [hc]
    have : kv.1 ∈ (m.filter (fun kv => entryComplete latest timeout kv.2)).map Prod.fst :=
      List.mem_map_of_mem Prod.fst (List.mem_filter.mpr ⟨hkv, hc⟩)
    exact List.elem_eq_true_of_mem this
  · have hc' : entryComplete latest timeout kv.2 = false := by simpa using hc
    rw [hc']
    by_contra habs
    have habs' : ((m.filter (fun kv => entryComplete latest timeout kv.2)).map
        Prod.fst).contains kv.1 = true := by
      revert habs
      cases ((m.filter (fun kv => entryComplete latest timeout kv.2)).map
        Prod.fst).contains kv.1 <;> simp
    obtain ⟨kv', hkv', hfst⟩ := List.mem_map.mp (List.mem_of_elem_eq_true habs')
    have hmem : kv' ∈ m := (List.mem_filter.mp hkv').1
    have : kv' = kv := mem_key_unique m h kv' kv hmem hkv hfst
    rw [this] at hkv'
    rw [(List.mem_filter.mp hkv').2] at hc'
    exact Bool.noConfusion hc'

/-! ## Helper lemmas: packet accounting across the pipeline -/

/-- Total number of packets buffered in the connection table. -/
def bufCount (m : ConnMap) : Nat := (m.map (fun kv => kv.2.packets.length)).sum

lemma sum_map_filter_split {α : Type} (p : α → Bool) (g : α → Nat) :
    ∀ l : List α,
      ((l.filter p).map g).sum + ((l.filter (fun a => !(p a))).map g).sum = (l.map g).sum
  | [] => rfl
  | a :: l => by
    rw [List.filter_cons, List.filter_cons]
    cases hp : p a <;>
      simp only [hp, Bool.not_true, Bool.not_false, Bool.false_eq_true, if_false, if_true,
        List.map_cons, List.sum_cons] <;>
      rw [← sum_map_filter_split p g l] <;> omega

lemma bufCount_scan_split (latest timeout : Int) (m : ConnMap) :
    bufCount (m.filter (fun kv => entryComplete latest timeout kv.2)) +
      bufCount (m.filter (fun kv => !(entryComplete latest timeout kv.2))) = bufCount m := by
  have := sum_map_filter_split (fun kv => entryComplete latest timeout kv.2)
    (fun kv : String × ConnEntry => kv.2.packets.length) m
  simpa [bufCount] using this

lemma addPacket_spec (st : ConnMap × Nat) (p : Packet)
    (h : (st.1.map Prod.fst).Nodup) :
    ((addPacket st p).1.map Prod.fst).Nodup ∧
    bufCount (addPacket st p).1 = bufCount st.1 + (if guardPass p then 1 else 0) := by
  unfold addPacket
  simp only []
  by_cases hg : guardPass p = true
  · simp only [hg, Bool.not_true, Bool.false_eq_true, if_false, if_true]
    cases hl : lookupEntry st.1 (connKey p) with
    | none =>
      dsimp only
      rw [setEntry_of_none _ _ _ hl]
      constructor
      · rw [List.map_append]
        refine List.Nodup.append h (by simp) ?_
        intro a ha hb
        simp only [List.map_cons, List.map_nil, List.mem_singleton] at hb
        exact (lookupEntry_none_iff st.1 (connKey p)).mp hl (hb ▸ ha)
      · simp [bufCount, updateConn]
    | some e =>
      obtain ⟨m1, m2, hm, hs⟩ := setEntry_decomp st.1 (connKey p) e (updateConn e p) hl
      dsimp only
      rw [hs]
      constructor
      · have : ((m1 ++ (connKey p, updateConn e p) :: m2).map Prod.fst)
            = ((m1 ++ (connKey p, e) :: m2).map Prod.fst) := by simp
        rw [this, ← hm]; exact h
      · rw [hm]
        simp [bufCount, updateConn, List.sum_append]
        omega
  · have hg' : guardPass p = false := by simpa using hg
    simp only [hg', Bool.not_false, if_true, Bool.false_eq_true, if_false]
    exact ⟨h, by omega⟩

lemma foldl_addPacket_spec : ∀ (chunk : List Packet) (st : ConnMap × Nat),
    (st.1.map Prod.fst).Nodup →
    (((chunk.foldl addPacket st).1.map Prod.fst).Nodup) ∧
    bufCount (chunk.foldl addPacket st).1 = bufCount st.1 + chunk.countP guardPass
  | [], st, h => ⟨h, by simp⟩
  | p :: chunk, st, h => by
    rw [List.foldl_cons]
    obtain ⟨h1, h2⟩ := addPacket_spec st p h
    obtain ⟨g1, g2⟩ := foldl_addPacket_spec chunk (addPacket st p) h1
    refine ⟨g1, ?_⟩
    rw [g2, h2, List.countP_cons]
    cases hg : guardPass p <;> simp [hg] <;> omega

lemma groupChunk_spec (chunk : List Packet) (m : ConnMap) (c : Nat)
    (h : (m.map Prod.fst).Nodup) :
    (((groupChunk chunk m c).1.map Prod.fst).Nodup) ∧
    bufCount (groupChunk chunk m c).1 = bufCount m + chunk.countP guardPass :=
  foldl_addPacket_spec chunk (m, c) h

lemma scanFlows_count (latest timeout : Int) (m : ConnMap) :
    (((scanLoop latest timeout m).1).map Flow.totalPackets).sum =
      bufCount (m.filter (fun kv => entryComplete latest timeout kv.2)) := by
  rw [scanLoop_flows, List.map_map, bufCount]
  congr 1
  apply List.map_congr_left
  intro kv _
  show (tagTimeout latest timeout kv.2
    (process_single_flow kv.1 kv.2.flow_id kv.2.packets)).totalPackets = _
  rw [tagTimeout_totalPackets, process_totalPackets]

lemma batchStep_empty (timeout : Int) (st : List Flow × ConnMap × Nat)
    (chunk : List Packet) (h : (chunk.filter isTCP).isEmpty = true) :
    batchStep timeout st chunk = st := by
  unfold batchStep
  simp only []
  rw [if_pos h]

lemma batchStep_nonempty (timeout : Int) (st : List Flow × ConnMap × Nat)
    (chunk : List Packet) (h : (chunk.filter isTCP).isEmpty = false) :
    batchStep timeout st chunk =
      (st.1 ++ (scanLoop (chunkLatest (chunk.filter isTCP)) timeout
          (groupChunk (chunk.filter isTCP) st.2.1 st.2.2).1).1,
       eraseKeys (groupChunk (chunk.filter isTCP) st.2.1 st.2.2).1
         (scanLoop (chunkLatest (chunk.filter isTCP)) timeout
           (groupChunk (chunk.filter isTCP) st.2.1 st.2.2).1).2,
       (groupChunk (chunk.filter isTCP) st.2.1 st.2.2).2) := by
  unfold batchStep detect_tcp_flows_incremental
  simp only []
  rw [if_neg (by simp [h])]

lemma batches_foldl_spec (timeout : Int) :
    ∀ (batches : List (List Packet)) (flows : List Flow) (m : ConnMap) (c : Nat),
    (m.map Prod.fst).Nodup →
    (((batches.foldl (batchStep timeout) (flows, m, c)).2.1.map Prod.fst).Nodup) ∧
    ((batches.foldl (batchStep timeout) (flows, m, c)).1.map Flow.totalPackets).sum +
        bufCount (batches.foldl (batchStep timeout) (flows, m, c)).2.1
      = (flows.map Flow.totalPackets).sum + bufCount m +
        (batches.map (fun chunk => (chunk.filter isTCP).countP guardPass)).sum
  | [], flows, m, c, h => ⟨h, by simp⟩
  | chunk :: rest, flows, m, c, h => by
    rw [List.foldl_cons]
    by_cases he : (chunk.filter isTCP).isEmpty = true
    · rw [batchStep_empty timeout _ _ he]
      obtain ⟨g1, g2⟩ := batches_foldl_spec timeout rest flows m c h
      refine ⟨g1, ?_⟩
      rw [g2]
      have : (chunk.filter isTCP) = [] := List.isEmpty_iff.mp he
      simp [this]
    · have he' : (chunk.filter isTCP).isEmpty = false := by simpa using he
      rw [batchStep_nonempty timeout _ _ he']
      set tcp := chunk.filter isTCP with htcp
      set latest := chunkLatest tcp with hlatest
      obtain ⟨hg1, hg2⟩ := groupChunk_spec tcp m c h
      set g := groupChunk tcp m c with hgdef
      have hm' : eraseKeys g.1 (scanLoop latest timeout g.1).2 =
          g.1.filter (fun kv => !(entryComplete latest timeout kv.2)) :=
        eraseKeys_scan latest timeout g.1 hg1
      have hm'nodup : ((eraseKeys g.1 (scanLoop latest timeout g.1).2).map Prod.fst).Nodup := by
        rw [hm']
        exact ((List.filter_sublist g.1).map Prod.fst).nodup hg1
      obtain ⟨r1, r2⟩ := batches_foldl_spec timeout rest
        (flows ++ (scanLoop latest timeout g.1).1)
        (eraseKeys g.1 (scanLoop latest timeout g.1).2) g.2 hm'nodup
      refine ⟨r1, ?_⟩
      have hflows : ((flows ++ (scanLoop latest timeout g.1).1).map Flow.totalPackets).sum
          = (flows.map Flow.totalPackets).sum +
            bufCount (g.1.filter (fun kv => entryComplete latest timeout kv.2)) := by
        rw [List.map_append, List.sum_append, scanFlows_count]
      have hbufm : bufCount (eraseKeys g.1 (scanLoop latest timeout g.1).2)
          = bufCount (g.1.filter (fun kv => !(entryComplete latest timeout kv.2))) := by
        rw [hm']
      have hsplit := bufCount_scan_split latest timeout g.1
      rw [r2, hflows, hbufm]
      simp only [List.map_cons, List.sum_cons]
      have htcp2 : List.countP guardPass (chunk.filter isTCP) = List.countP guardPass tcp := by
        rw [htcp]
      omega

lemma countP_batches_eq (batches : List (List Packet)) :
    (batches.map (fun chunk => (chunk.filter isTCP).countP guardPass)).sum
      = ((batches.flatten.filter isTCP).filter guardPass).length := by
  induction batches with
  | nil => rfl
  | cons chunk rest ih =>
    rw [List.map_cons, List.sum_cons, List.flatten_cons, List.filter_append,
      List.filter_append, List.length_append, ih, List.countP_eq_length_filter]

/-! ## Helper lemmas: time bins -/

lemma foldl_min_le_init : ∀ (l : List Int) (a : Int), l.foldl min a ≤ a
  | [], a => le_refl a
  | x :: l, a => le_trans (foldl_min_le_init l (min a x)) (min_le_left a x)

lemma foldl_min_le_mem : ∀ (l : List Int) (a t : Int), t ∈ l → l.foldl min a ≤ t
  | [], _, _, h => by simp at h
  | x :: l, a, t, h => by
    rcases List.mem_cons.mp h with rfl | h'
    · exact le_trans (foldl_min_le_init l (min a t)) (min_le_right a t)
    · exact foldl_min_le_mem l (min a x) t h'

lemma le_foldl_max_init : ∀ (l : List Int) (a : Int), a ≤ l.foldl max a
  | [], a => le_refl a
  | x :: l, a => le_trans (le_max_left a x) (le_foldl_max_init l (max a x))

lemma le_foldl_max_mem : ∀ (l : List Int) (a t : Int), t ∈ l → t ≤ l.foldl max a
  | [], _, _, h => by simp at h
  | x :: l, a, t, h => by
    rcases List.mem_cons.mp h with rfl | h'
    · exact le_trans (le_max_right a t) (le_foldl_max_init l (max a t))
    · exact le_foldl_max_mem l (max a x) t h'

lemma tsMinL_le {l : List Int} {t : Int} (h : t ∈ l) : tsMinL l ≤ t := by
  cases l with
  | nil => simp at h
  | cons x xs =>
    unfold tsMinL
    rcases List.mem_cons.mp h with rfl | h'
    · exact foldl_min_le_init xs t
    · exact foldl_min_le_mem xs x t h'

lemma le_tsMaxL {l : List Int} {t : Int} (h : t ∈ l) : t ≤ tsMaxL l := by
  cases l with
  | nil => simp at h
  | cons x xs =>
    unfold tsMaxL
    rcases List.mem_cons.mp h with rfl | h'
    · exact le_foldl_max_init xs t
    · exact le_foldl_max_mem xs x t h'

/-- Exactly one half-open interval `[i*D, (i+1)*D)` with `i < nb` holds a
value `x` with `0 ≤ x < nb*D`. -/
lemma int_bin_unique (D x : Int) (hD : 0 < D) (hx : 0 ≤ x) (nb : Nat)
    (hlt : x < (nb : Int) * D) :
    ∃ i0 : Nat, i0 < nb ∧
      ∀ i : Nat, (((i : Int) * D ≤ x ∧ x < ((i : Int) + 1) * D) ↔ i = i0) := by
  have hDn : (D.toNat : Int) = D := Int.toNat_of_nonneg (le_of_lt hD)
  have hxn : (x.toNat : Int) = x := Int.toNat_of_nonneg hx
  have hDnpos : 0 < D.toNat := by omega
  set q : Nat := x.toNat / D.toNat with hq
  have hlowN : q * D.toNat ≤ x.toNat := Nat.div_mul_le_self x.toNat D.toNat
  have hhighN : x.toNat < (q + 1) * D.toNat := by
    have h1 : x.toNat = D.toNat * q + x.toNat % D.toNat := (Nat.div_add_mod x.toNat D.toNat).symm
    have h2 : x.toNat % D.toNat < D.toNat := Nat.mod_lt x.toNat hDnpos
    calc x.toNat = D.toNat * q + x.toNat % D.toNat := h1
      _ < D.toNat * q + D.toNat := Nat.add_lt_add_left h2 _
      _ = (q + 1) * D.toNat := by ring
  have hlow : (q : Int) * D ≤ x := by
    rw [← hDn, ← hxn]; exact_mod_cast hlowN
  have hhigh : x < ((q : Int) + 1) * D := by
    rw [← hDn, ← hxn]; exact_mod_cast hhighN
  have hqnb : q < nb := by
    by_contra hge
    push_neg at hge
    have h1 : (nb : Int) * D ≤ (q : Int) * D :=
      mul_le_mul_of_nonneg_right (by exact_mod_cast hge) (le_of_lt hD)
    have := le_trans h1 hlow
    omega
  refine ⟨q, hqnb, fun i => ⟨fun ⟨h1, h2⟩ => ?_, fun hi => hi ▸ ⟨hlow, hhigh⟩⟩⟩
  have ha : (i : Int) < (q : Int) + 1 := by
    have := lt_of_le_of_lt h1 hhigh
    exact lt_of_mul_lt_mul_right this (le_of_lt hD)
  have hb : (q : Int) < (i : Int) + 1 := by
    have := lt_of_le_of_lt hlow h2
    exact lt_of_mul_lt_mul_right this (le_of_lt hD)
  omega

/-- Exactly one bin index fits a timestamp strictly inside the range. -/
lemma binContains_unique (min_ts max_ts : Int) (nb : Nat) (hnb : 0 < nb) (t : Int)
    (hmin : min_ts ≤ t) (hmax : t < max_ts) :
    ∃ i0 : Nat, i0 < nb ∧
      ∀ i : Nat, (binContains min_ts max_ts nb i t = true ↔ i = i0) := by
  obtain ⟨i0, hi0, hiff⟩ := int_bin_unique (max_ts - min_ts) ((t - min_ts) * (nb : Int))
    (by omega) (mul_nonneg (by omega) (by exact_mod_cast Nat.zero_le nb)) nb
    (by
      have : (t - min_ts) * (nb : Int) < (max_ts - min_ts) * (nb : Int) :=
        mul_lt_mul_of_pos_right (by omega) (by exact_mod_cast hnb)
      calc (t - min_ts) * (nb : Int) < (max_ts - min_ts) * (nb : Int) := this
        _ = (nb : Int) * (max_ts - min_ts) := mul_comm _ _)
  refine ⟨i0, hi0, fun i => ?_⟩
  unfold binContains
  rw [Bool.and_eq_true, decide_eq_true_iff, decide_eq_true_iff]
  exact hiff i

/-- No bin contains the maximal timestamp (the last bin is half-open). -/
lemma binContains_at_max (min_ts max_ts : Int) (nb : Nat) (hlt : min_ts < max_ts)
    (i : Nat) (hi : i < nb) :
    binContains min_ts max_ts nb i max_ts = false := by
  have hno : ¬ ((max_ts - min_ts) * (nb : Int) < ((i : Int) + 1) * (max_ts - min_ts)) := by
    push_neg
    calc ((i : Int) + 1) * (max_ts - min_ts) ≤ (nb : Int) * (max_ts - min_ts) := by
          apply mul_le_mul_of_nonneg_right _ (by omega)
          exact_mod_cast hi
      _ = (max_ts - min_ts) * (nb : Int) := mul_comm _ _
  unfold binContains
  simp [hno]

lemma range_filter_binContains (min_ts max_ts : Int) (nb : Nat) (hnb : 0 < nb)
    (hlt : min_ts < max_ts) (t : Int) (hmin : min_ts ≤ t) (hmax : t ≤ max_ts) :
    ((List.range nb).filter (fun i => binContains min_ts max_ts nb i t)).length
      = if t < max_ts then 1 else 0 := by
  by_cases hcase : t < max_ts
  · obtain ⟨i0, hi0, hiff⟩ := binContains_unique min_ts max_ts nb hnb t hmin hcase
    rw [if_pos hcase, ← List.countP_eq_length_filter]
    have : List.countP (fun i => binContains min_ts max_ts nb i t) (List.range nb)
        = List.countP (fun i => i == i0) (List.range nb) := by
      apply List.countP_congr
      intro i _
      rw [hiff i]
      simp
    rw [this]
    have hc : List.countP (fun i => i == i0) (List.range nb) = List.count i0 (List.range nb) := by
      rfl
    rw [hc]
    exact List.count_eq_one_of_mem (List.nodup_range nb) (List.mem_range.mpr hi0)
  · rw [if_neg hcase]
    have ht : t = max_ts := le_antisymm hmax (not_lt.mp hcase)
    rw [List.length_eq_zero]
    apply List.filter_eq_nil.mpr
    intro i hi
    rw [ht, binContains_at_max min_ts max_ts nb hlt i (List.mem_range.mp hi)]
    simp

lemma sum_map_add {α : Type} (f g : α → Nat) : ∀ l : List α,
    (l.map (fun a => f a + g a)).sum = (l.map f).sum + (l.map g).sum
  | [] => rfl
  | a :: l => by
    simp only [List.map_cons, List.sum_cons, sum_map_add f g l]
    omega

lemma sum_map_ite {α : Type} (p : α → Bool) : ∀ l : List α,
    (l.map (fun a => if p a then (1 : Nat) else 0)).sum = (l.filter p).length
  | [] => rfl
  | a :: l => by
    rw [List.map_cons, List.sum_cons, List.filter_cons, sum_map_ite p l]
    cases hp : p a <;> simp [hp] <;> omega

/-- Double counting: summing per-bin counts equals summing, per timestamp,
the number of bins that contain it. -/
lemma sum_countP_swap (nb : Nat) (pred : Nat → Int → Bool) : ∀ tss : List Int,
    ((List.range nb).map (fun i => tss.countP (fun t => pred i t))).sum
      = (tss.map (fun t => ((List.range nb).filter (fun i => pred i t)).length)).sum
  | [] => by simp
  | t :: tss => by
    have h1 : ∀ i : Nat, (t :: tss).countP (fun u => pred i u)
        = tss.countP (fun u => pred i u) + (if pred i t then 1 else 0) := by
      intro i
      rw [List.countP_cons]
    calc ((List.range nb).map (fun i => (t :: tss).countP (fun u => pred i u))).sum
        = ((List.range nb).map
            (fun i => tss.countP (fun u => pred i u) + (if pred i t then 1 else 0))).sum := by
          congr 1
          exact List.map_congr_left (fun i _ => h1 i)
      _ = ((List.range nb).map (fun i => tss.countP (fun u => pred i u))).sum
            + ((List.range nb).map (fun i => if pred i t then (1:Nat) else 0)).sum :=
          sum_map_add _ _ _
      _ = (tss.map (fun u => ((List.range nb).filter (fun i => pred i u)).length)).sum
            + ((List.range nb).filter (fun i => pred i t)).length := by
          rw [sum_countP_swap nb pred tss, sum_map_ite]
      _ = _ := by
          rw [List.map_cons, List.sum_cons]
          omega

lemma sum_ite_lt (mx : Int) : ∀ l : List Int,
    (l.map (fun t => if t < mx then (1:Nat) else 0)).sum
      = l.countP (fun t => decide (t < mx))
  | [] => rfl
  | t :: l => by
    rw [List.map_cons, List.sum_cons, List.countP_cons, sum_ite_lt mx l]
    by_cases hc : t < mx
    · simp [hc]; omega
    · simp [hc]

/-! ## Targeted step lemmas used by the handshake claims -/

lemma flowStep_to_synAck (f : Flow) (q : Packet)
    (hsyn : (q.flags &&& 0x02 != 0) = true) (hack : (q.flags &&& 0x10 != 0) = true)
    (hrst : (q.flags &&& 0x04 != 0) = false) (hstate : ¬ f.state = "invalid") :
    flowStep f q = stepSynAck { f with packets := f.packets ++ [q] } q := by
  unfold flowStep
  simp only []
  rw [if_neg (by simpa using hstate), if_neg (by simp [hack]),
    if_pos (by simp [hsyn, hack, hrst])]

lemma stepSynAck_mismatch (f : Flow) (q : Packet)
    (hstate : f.state = "establishing") (hsp : f.synPacket.isSome = true)
    (hmism : (some q.ack_num == f.expectedAckNum) = false) :
    stepSynAck f q =
      ({ f with
          state := "invalid"
          invalidReason := some "invalid_synack"
          invalidPacket := some q
          closeType := some "invalid" }, true) := by
  unfold stepSynAck
  rw [if_pos (by simp [hstate, hsp]), if_neg (by simp [hmism])]

/-! ## Claims -/

/-- The three packets of the handshake scenario of C1. -/
def c1syn : Packet := ⟨1, "10.0.0.1", "10.0.0.2", 1000, 80, 2, 100, 0, 0, some 6⟩

def c1synack : Packet := ⟨2, "10.0.0.2", "10.0.0.1", 80, 1000, 18, 200, 101, 0, some 6⟩

def c1ack : Packet := ⟨3, "10.0.0.1", "10.0.0.2", 1000, 80, 16, 101, 201, 0, some 6⟩

/-- C1: the three-packet input SYN(seq=100) from A:1000 to B:80,
SYN+ACK(seq=200, ack=101) from B:80 to A:1000, and pure ACK(seq=101, ack=201)
from A:1000 to B:80, processed as one connection by `process_single_flow`,
yields a single flow whose establishment is complete, whose invalid reason is
unset, whose loop state is `established`, and whose finalized state is
`ongoing` with closeType `open`. -/
theorem c1_three_packet_handshake :
    (flowLoop (initFlow "10.0.0.1:1000-10.0.0.2:80" "flow_000001"
        (sortPackets [c1syn, c1synack, c1ack]))
      (sortPackets [c1syn, c1synack, c1ack])).state = "established"
  ∧ (process_single_flow "10.0.0.1:1000-10.0.0.2:80" "flow_000001"
      [c1syn, c1synack, c1ack]).establishmentComplete = true
  ∧ (process_single_flow "10.0.0.1:1000-10.0.0.2:80" "flow_000001"
      [c1syn, c1synack, c1ack]).invalidReason = none
  ∧ (process_single_flow "10.0.0.1:1000-10.0.0.2:80" "flow_000001"
      [c1syn, c1synack, c1ack]).state = "ongoing"
  ∧ (process_single_flow "10.0.0.1:1000-10.0.0.2:80" "flow_000001"
      [c1syn, c1synack, c1ack]).closeType = some "open" := by
  decide

/-- C2: whenever the sorted connection packet list splits as
`pre ++ q :: post` where processing `pre` leaves the flow `establishing` with
a recorded SYN (so the expected-ack is the SYN's seq+1), and `q` is a
SYN+ACK whose ack_num differs from that recorded expected-ack, the state
machine terminates the flow immediately as `invalid` with reason
`invalid_synack`: the offending packet is recorded as the invalid packet,
the phase lists are exactly those accumulated before `q`, and no packet
after `q` is processed (the stored list stops at `q`). -/
theorem c2_invalid_synack_halts (key fid : String) (ps pre post : List Packet)
    (q : Packet)
    (hsort : sortPackets ps = pre ++ q :: post)
    (hsyn : q.flags &&& 0x02 ≠ 0) (hack : q.flags &&& 0x10 ≠ 0)
    (hrst : q.flags &&& 0x04 = 0)
    (hstate : (flowLoop (initFlow key fid (pre ++ q :: post)) pre).state = "establishing")
    (hsp : (flowLoop (initFlow key fid (pre ++ q :: post)) pre).synPacket.isSome = true)
    (hmism : some q.ack_num ≠
      (flowLoop (initFlow key fid (pre ++ q :: post)) pre).expectedAckNum) :
    (process_single_flow key fid ps).state = "invalid"
  ∧ (process_single_flow key fid ps).invalidReason = some "invalid_synack"
  ∧ (process_single_flow key fid ps).invalidPacket = some q
  ∧ (process_single_flow key fid ps).phases
      = (flowLoop (initFlow key fid (pre ++ q :: post)) pre).phases
  ∧ (process_single_flow key fid ps).packets
      = (flowLoop (initFlow key fid (pre ++ q :: post)) pre).packets ++ [q] := by
  have hps : process_single_flow key fid ps
      = finalizeFlow (flowLoop (initFlow key fid (pre ++ q :: post)) (pre ++ q :: post)) := by
    unfold process_single_flow
    dsimp only
    rw [hsort]
  have hnotinv : (flowLoop (initFlow key fid (pre ++ q :: post)) pre).state ≠ "invalid" := by
    rw [hstate]; decide
  have happ : flowLoop (initFlow key fid (pre ++ q :: post)) (pre ++ q :: post)
      = flowLoop (flowLoop (initFlow key fid (pre ++ q :: post)) pre) (q :: post) :=
    flowLoop_append pre (q :: post) _ hnotinv
  set f := flowLoop (initFlow key fid (pre ++ q :: post)) pre with hf
  have hstep : flowStep f q = stepSynAck { f with packets := f.packets ++ [q] } q :=
    flowStep_to_synAck f q (by simpa using hsyn) (by simpa using hack)
      (by simpa using hrst) (by rw [hstate]; decide)
  have hmm : (some q.ack_num == ({ f with packets := f.packets ++ [q] } : Flow).expectedAckNum)
      = false := by
    simpa using hmism
  have hsm : stepSynAck { f with packets := f.packets ++ [q] } q =
      ({ { f with packets := f.packets ++ [q] } with
          state := "invalid"
          invalidReason := some "invalid_synack"
          invalidPacket := some q
          closeType := some "invalid" }, true) :=
    stepSynAck_mismatch _ q hstate hsp hmm
  have hloop : flowLoop f (q :: post)
      = { f with
          packets := f.packets ++ [q]
          state := "invalid"
          invalidReason := some "invalid_synack"
          invalidPacket := some q
          closeType := some "invalid" } := by
    rw [flowLoop_cons, hstep, hsm]
    rfl
  rw [hps, happ, hloop, finalizeFlow_of_invalid _ rfl]
  exact ⟨rfl, rfl, rfl, rfl, rfl⟩

/-- Packets of the C2 witness scenario: a valid SYN, then a SYN+ACK whose
ack number 999 differs from the expected 101, then a later packet. -/
def c2syn : Packet := ⟨0, "10.0.0.1", "10.0.0.2", 1000, 80, 2, 100, 0, 0, some 6⟩

def c2bad : Packet := ⟨1, "10.0.0.2", "10.0.0.1", 80, 1000, 18, 200, 999, 0, some 6⟩

def c2extra : Packet := ⟨2, "10.0.0.1", "10.0.0.2", 1000, 80, 16, 101, 201, 0, some 6⟩

theorem c2_invalid_synack_halts_witness :
    (process_single_flow "k" "flow_000001" [c2syn, c2bad, c2extra]).state = "invalid"
  ∧ (process_single_flow "k" "flow_000001" [c2syn, c2bad, c2extra]).invalidReason
      = some "invalid_synack"
  ∧ (process_single_flow "k" "flow_000001" [c2syn, c2bad, c2extra]).invalidPacket = some c2bad
  ∧ (process_single_flow "k" "flow_000001" [c2syn, c2bad, c2extra]).phases
      = (flowLoop (initFlow "k" "flow_000001" ([c2syn] ++ c2bad :: [c2extra])) [c2syn]).phases
  ∧ (process_single_flow "k" "flow_000001" [c2syn, c2bad, c2extra]).packets
      = (flowLoop (initFlow "k" "flow_000001" ([c2syn] ++ c2bad :: [c2extra]))
          [c2syn]).packets ++ [c2bad] :=
  c2_invalid_synack_halts "k" "flow_000001" [c2syn, c2bad, c2extra] [c2syn] [c2extra] c2bad
    (by decide) (by decide) (by decide) (by decide) (by decide) (by decide) (by decide)

lemma flowStep_to_pureAck (f : Flow) (p : Packet)
    (hack : (p.flags &&& 0x10 != 0) = true) (hsyn : (p.flags &&& 0x02 != 0) = false)
    (hfin : (p.flags &&& 0x01 != 0) = false) (hrst : (p.flags &&& 0x04 != 0) = false)
    (hpsh : (p.flags &&& 0x08 != 0) = false)
    (hstate : f.state = "establishing") :
    flowStep f p = stepPureAck { f with packets := f.packets ++ [p] } p := by
  unfold flowStep
  simp only []
  rw [if_neg (by simp [hstate]), if_neg (by simp [hsyn]), if_neg (by simp [hsyn]),
    if_pos (by rw [hack, hsyn, hfin, hrst, hpsh, hstate]; decide)]

/-- Packets of the C3 counterexample: a SYN at t=0 followed directly by a
pure ACK at t=1 with no SYN+ACK in between. -/
def c3syn : Packet := ⟨0, "10.0.0.1", "10.0.0.2", 1000, 80, 2, 100, 0, 0, some 6⟩

def c3ack : Packet := ⟨1, "10.0.0.1", "10.0.0.2", 1000, 80, 16, 101, 201, 0, some 6⟩

/-- C3 counterexample: a flow consisting of a SYN followed directly by a pure
ACK (no SYN+ACK ever observed) reaches state `established` through the
unvalidated completion branch, with zero recorded `syn_ack` phase entries and
no recorded SYN+ACK packet — refuting ClaimC3 both in its exactly-one-`syn_ack`
part and in its claim that a pure ACK completes establishment only under
sequence-number validation. -/
theorem c3_established_without_synack :
    (flowLoop (initFlow "k" "flow_000001" (sortPackets [c3syn, c3ack]))
      (sortPackets [c3syn, c3ack])).state = "established"
  ∧ ((flowLoop (initFlow "k" "flow_000001" (sortPackets [c3syn, c3ack]))
      (sortPackets [c3syn, c3ack])).phases.establishment.countP
        (fun e => e.phase == "syn_ack")) = 0
  ∧ (flowLoop (initFlow "k" "flow_000001" (sortPackets [c3syn, c3ack]))
      (sortPackets [c3syn, c3ack])).synAckPacket = none
  ∧ (process_single_flow "k" "flow_000001" [c3syn, c3ack]).establishmentComplete = true
  ∧ (process_single_flow "k" "flow_000001" [c3syn, c3ack]).state = "ongoing" := by
  decide

/-- C3 (amended): when a pure ACK (ACK set, no SYN/FIN/RST/PSH) is observed
while the flow is `establishing` AND a SYN+ACK has been recorded with a
truthy expected-seq, establishment completes exactly when the ACK's ack_num
equals the recorded expected-seq and its seq_num equals the recorded
expected-ack; on mismatch the flow becomes `invalid` with reason
`invalid_ack` and processing breaks.  (Without a recorded SYN+ACK the first
pure ACK completes establishment unconditionally — see the counterexample.) -/
theorem c3_pure_ack_validation (f : Flow) (p : Packet)
    (hack : p.flags &&& 0x10 ≠ 0) (hsyn : p.flags &&& 0x02 = 0)
    (hfin : p.flags &&& 0x01 = 0) (hrst : p.flags &&& 0x04 = 0)
    (hpsh : p.flags &&& 0x08 = 0)
    (hstate : f.state = "establishing")
    (hsa : f.synAckPacket.isSome = true) (hseq : truthyInt f.expectedSeqNum = true) :
    if some p.ack_num = f.expectedSeqNum ∧ some p.seq_num = f.expectedAckNum then
      (flowStep f p).1.state = "established"
      ∧ (flowStep f p).1.establishmentComplete = true
      ∧ (flowStep f p).1.phases.establishment
          = f.phases.establishment ++ [⟨p, "ack", "Connection Established"⟩]
      ∧ (flowStep f p).2 = false
    else
      (flowStep f p).1.state = "invalid"
      ∧ (flowStep f p).1.invalidReason = some "invalid_ack"
      ∧ (flowStep f p).1.invalidPacket = some p
      ∧ (flowStep f p).2 = true := by
  have hd : flowStep f p = stepPureAck { f with packets := f.packets ++ [p] } p :=
    flowStep_to_pureAck f p (by simpa using hack) (by simpa using hsyn)
      (by simpa using hfin) (by simpa using hrst) (by simpa using hpsh) hstate
  by_cases hc : some p.ack_num = f.expectedSeqNum ∧ some p.seq_num = f.expectedAckNum
  · rw [if_pos hc, hd]
    unfold stepPureAck
    rw [if_pos (by simp [hsa, hseq]), if_pos (by simp [hc.1, hc.2])]
    exact ⟨rfl, rfl, rfl, rfl⟩
  · rw [if_neg hc, hd]
    unfold stepPureAck
    rw [if_pos (by simp [hsa, hseq]),
      if_neg (by simp only [Bool.and_eq_true, beq_iff_eq]; exact hc)]
    exact ⟨rfl, rfl, rfl, rfl⟩

/-- A valid SYN+ACK for the C3 witness handshake. -/
def c3good : Packet := ⟨1, "10.0.0.2", "10.0.0.1", 80, 1000, 18, 200, 101, 0, some 6⟩

/-- A matching final ACK for the C3 witness handshake. -/
def c3fin : Packet := ⟨2, "10.0.0.1", "10.0.0.2", 1000, 80, 16, 101, 201, 0, some 6⟩

theorem c3_pure_ack_validation_witness :
    if some (c3fin.ack_num) = (flowLoop (initFlow "k" "flow_000001" [c3syn, c3good])
          [c3syn, c3good]).expectedSeqNum
        ∧ some (c3fin.seq_num) = (flowLoop (initFlow "k" "flow_000001" [c3syn, c3good])
          [c3syn, c3good]).expectedAckNum then
      (flowStep (flowLoop (initFlow "k" "flow_000001" [c3syn, c3good]) [c3syn, c3good])
          c3fin).1.state = "established"
      ∧ (flowStep (flowLoop (initFlow "k" "flow_000001" [c3syn, c3good]) [c3syn, c3good])
          c3fin).1.establishmentComplete = true
      ∧ (flowStep (flowLoop (initFlow "k" "flow_000001" [c3syn, c3good]) [c3syn, c3good])
          c3fin).1.phases.establishment
          = (flowLoop (initFlow "k" "flow_000001" [c3syn, c3good])
              [c3syn, c3good]).phases.establishment
            ++ [⟨c3fin, "ack", "Connection Established"⟩]
      ∧ (flowStep (flowLoop (initFlow "k" "flow_000001" [c3syn, c3good]) [c3syn, c3good])
          c3fin).2 = false
    else
      (flowStep (flowLoop (initFlow "k" "flow_000001" [c3syn, c3good]) [c3syn, c3good])
          c3fin).1.state = "invalid"
      ∧ (flowStep (flowLoop (initFlow "k" "flow_000001" [c3syn, c3good]) [c3syn, c3good])
          c3fin).1.invalidReason = some "invalid_ack"
      ∧ (flowStep (flowLoop (initFlow "k" "flow_000001" [c3syn, c3good]) [c3syn, c3good])
          c3fin).1.invalidPacket = some c3fin
      ∧ (flowStep (flowLoop (initFlow "k" "flow_000001" [c3syn, c3good]) [c3syn, c3good])
          c3fin).2 = true :=
  c3_pure_ack_validation _ c3fin (by decide) (by decide) (by decide) (by decide)
    (by decide) (by decide) (by decide) (by decide)

/-- C4 counterexample: with a 5-second threshold and an inactivity of exactly
5,000,000 microseconds, the scan judges the entry complete although the
inactivity converted to seconds does not strictly exceed the threshold (the
source compares with `>=`, the claim says "exceeds"). -/
theorem c4_boundary_counterexample :
    entryComplete 5000000 5 ⟨[], "flow_000001", 0, false⟩ = true
  ∧ ¬ ((⟨[], "flow_000001", 0, false⟩ : ConnEntry).has_fin_or_rst = true ∨
       (5 : ℚ) < inactive_seconds 5000000 0) := by
  refine ⟨by decide, ?_⟩
  rintro (h | h)
  · simp at h
  · have h5 : inactive_seconds 5000000 0 = 5 := by
      unfold inactive_seconds
      norm_num
    rw [h5] at h
    exact lt_irrefl _ h

/-- C4 (amended): during a completion scan, an entry is judged complete iff
it has seen FIN or RST or its inactivity (batch max timestamp minus
last-packet time, converted to seconds) is at least (`>=`, not strictly
greater than) the threshold; every complete entry is finalized by
`process_single_flow` on its buffer, tagged `completed_by_timeout` exactly
when the completion was timeout-driven without FIN/RST, and removed from the
table, which keeps exactly the incomplete entries. -/
theorem c4_completion_scan (latest timeout : Int) (m : ConnMap)
    (hnd : (m.map Prod.fst).Nodup) :
    (scanLoop latest timeout m).1
      = (m.filter (fun kv => entryComplete latest timeout kv.2)).map
          (fun kv => tagTimeout latest timeout kv.2
            (process_single_flow kv.1 kv.2.flow_id kv.2.packets))
  ∧ eraseKeys m (scanLoop latest timeout m).2
      = m.filter (fun kv => !(entryComplete latest timeout kv.2))
  ∧ (∀ kv ∈ m, entryComplete latest timeout kv.2 = true
        ↔ (kv.2.has_fin_or_rst = true ∨
           (timeout : ℚ) ≤ inactive_seconds latest kv.2.last_packet_time))
  ∧ (∀ kv ∈ m,
      (tagTimeout latest timeout kv.2
        (process_single_flow kv.1 kv.2.flow_id kv.2.packets)).completed_by_timeout
        = (hasTimedOut latest kv.2.last_packet_time timeout && !kv.2.has_fin_or_rst)) := by
  refine ⟨scanLoop_flows latest timeout m, eraseKeys_scan latest timeout m hnd, ?_, ?_⟩
  · intro kv _
    unfold entryComplete
    rw [Bool.or_eq_true, hasTimedOut_iff]
  · intro kv _
    exact tagTimeout_cbt _ _ _ _ (process_completed_by_timeout _ _ _)

/-- Two table entries for the C4 witness: one closed by RST, one idle for
only 1 second. -/
def c4e1 : ConnEntry := ⟨[⟨0, "a", "b", 1, 2, 4, 0, 0, 0, some 6⟩], "flow_000001", 0, true⟩

def c4e2 : ConnEntry := ⟨[⟨7000000, "c", "d", 3, 4, 16, 0, 0, 0, some 6⟩], "flow_000002",
  7000000, false⟩

theorem c4_completion_scan_witness :
    (scanLoop 8000000 300 [("ka", c4e1), ("kb", c4e2)]).1
      = ([("ka", c4e1), ("kb", c4e2)].filter
          (fun kv => entryComplete 8000000 300 kv.2)).map
          (fun kv => tagTimeout 8000000 300 kv.2
            (process_single_flow kv.1 kv.2.flow_id kv.2.packets))
  ∧ eraseKeys [("ka", c4e1), ("kb", c4e2)]
      (scanLoop 8000000 300 [("ka", c4e1), ("kb", c4e2)]).2
      = [("ka", c4e1), ("kb", c4e2)].filter
          (fun kv => !(entryComplete 8000000 300 kv.2))
  ∧ (∀ kv ∈ [("ka", c4e1), ("kb", c4e2)], entryComplete 8000000 300 kv.2 = true
        ↔ (kv.2.has_fin_or_rst = true ∨
           (300 : ℚ) ≤ inactive_seconds 8000000 kv.2.last_packet_time))
  ∧ (∀ kv ∈ [("ka", c4e1), ("kb", c4e2)],
      (tagTimeout 8000000 300 kv.2
        (process_single_flow kv.1 kv.2.flow_id kv.2.packets)).completed_by_timeout
        = (hasTimedOut 8000000 kv.2.last_packet_time 300 && !kv.2.has_fin_or_rst)) :=
  c4_completion_scan 8000000 300 [("ka", c4e1), ("kb", c4e2)] (by decide)

/-- The two packets of the C5 scenario (same connection, no FIN/RST): a SYN
at t=0 and a pure ACK at t=10,000,000 microseconds. -/
def c5a : Packet := ⟨0, "10.0.0.1", "10.0.0.2", 1000, 80, 2, 100, 0, 0, some 6⟩

def c5b : Packet := ⟨10000000, "10.0.0.1", "10.0.0.2", 1000, 80, 16, 101, 201, 0, some 6⟩

/-- C5 counterexample: with inactivity timeout 5 s and a batch boundary after
t=10,000,000 µs, the tracker completes nothing by timeout — at each scan the
connection's last-packet time equals the batch's maximum timestamp, so its
inactivity is 0 s.  The connection survives to end-of-stream and the single
resulting flow is force-completed with `completed_by_timeout` unset (its
finalized state happens to be `ongoing`, but not through a timeout
completion as the claim asserts). -/
theorem c5_no_timeout_completion :
    (runIncremental 5 [[c5a], [c5b]]).1 = []
  ∧ (process_tcp_data_chunked 5 [[c5a], [c5b]]).map
      (fun fl => (fl.completed_by_timeout, fl.state)) = [(false, "ongoing")] := by
  decide

/-- A packet of an unrelated connection observed at t=15,000,000 µs. -/
def c5q : Packet := ⟨15000000, "10.0.0.3", "10.0.0.4", 5, 6, 16, 0, 0, 0, some 6⟩

/-- C5 (amended): the connection is completed by timeout only when a later
batch observes traffic whose maximum timestamp is at least the timeout past
the connection's last packet: adding a third batch with a foreign packet at
t=15,000,000 µs (5 s after t=10,000,000), the scan completes the connection
with `completed_by_timeout=true` and final state `ongoing`. -/
theorem c5_timeout_needs_later_traffic :
    ((runIncremental 5 [[c5a], [c5b], [c5q]]).1.map
      (fun fl => (fl.completed_by_timeout, fl.state, fl.key)))
      = [(true, "ongoing", connKey c5a)] := by
  decide

/-- Packets of the C6 counterexample: SYN, then a SYN+ACK with a wrong ack
number (triggering the early `break`), then one further packet. -/
def c6syn : Packet := ⟨0, "10.0.0.1", "10.0.0.2", 1000, 80, 2, 100, 0, 10, some 6⟩

def c6bad : Packet := ⟨1, "10.0.0.2", "10.0.0.1", 80, 1000, 18, 200, 999, 20, some 6⟩

def c6extra : Packet := ⟨2, "10.0.0.1", "10.0.0.2", 1000, 80, 16, 101, 201, 30, some 6⟩

/-- C6 counterexample: when handshake validation fails the loop executes
`break`, so the stored packet list stops at the offending packet while
`totalPackets`/`totalBytes` were computed from the full sorted list —
`flow.totalPackets` (3) is not the length of the stored packet list (2),
refuting the claim that the totals match "that exact packet list". -/
theorem c6_truncation_counterexample :
    (process_single_flow "k" "flow_000001" [c6syn, c6bad, c6extra]).totalPackets = 3
  ∧ ((process_single_flow "k" "flow_000001" [c6syn, c6bad, c6extra]).packets).length = 2
  ∧ (process_single_flow "k" "flow_000001" [c6syn, c6bad, c6extra]).totalBytes = 60
  ∧ ((process_single_flow "k" "flow_000001"
      [c6syn, c6bad, c6extra]).packets.map lengthOrZero).sum = 30 := by
  decide

/-- C6 (amended): for every finalized flow, `totalPackets` and `totalBytes`
equal the length of and the byte sum over the FULL sorted connection packet
list (computed before the loop); the stored packet list is a prefix of that
sorted list (hence itself non-decreasing in timestamp), and the two coincide
whenever the flow was not terminated early by handshake validation (reasons
`invalid_synack`/`invalid_ack`). -/
theorem c6_totals_and_order (k fid : String) (ps : List Packet) :
    (process_single_flow k fid ps).totalPackets = ps.length
  ∧ (process_single_flow k fid ps).totalBytes = (ps.map lengthOrZero).sum
  ∧ (∃ rest, sortPackets ps = (process_single_flow k fid ps).packets ++ rest)
  ∧ (process_single_flow k fid ps).packets.Pairwise TsLe
  ∧ ((process_single_flow k fid ps).invalidReason ≠ some "invalid_synack" →
     (process_single_flow k fid ps).invalidReason ≠ some "invalid_ack" →
     (process_single_flow k fid ps).packets = sortPackets ps) := by
  have hdef : process_single_flow k fid ps
      = finalizeFlow (flowLoop (initFlow k fid (sortPackets ps)) (sortPackets ps)) := rfl
  have hpk : (process_single_flow k fid ps).packets
      = (flowLoop (initFlow k fid (sortPackets ps)) (sortPackets ps)).packets := by
    rw [hdef, (finalizeFlow_fields _).2.2.2.1]
  have hinit : (initFlow k fid (sortPackets ps)).packets = [] := rfl
  obtain ⟨qs, rest, hsplit, hq⟩ :=
    flowLoop_packets_decomp (sortPackets ps) (initFlow k fid (sortPackets ps))
  rw [hinit, List.nil_append] at hq
  have hsorted : (sortPackets ps).Pairwise TsLe := by
    have := List.sorted_insertionSort TsLe ps
    exact this
  refine ⟨process_totalPackets k fid ps, process_totalBytes k fid ps, ?_, ?_, ?_⟩
  · exact ⟨rest, by rw [hpk, hq, hsplit]⟩
  · rw [hpk, hq]
    have : (qs ++ rest).Pairwise TsLe := hsplit ▸ hsorted
    exact (List.pairwise_append.mp this).1
  · intro h1 h2
    rcases flowLoop_full_or_break (sortPackets ps) (initFlow k fid (sortPackets ps)) with
      hfull | ⟨hst, hr⟩
    · rw [hpk, hfull, hinit, List.nil_append]
    · rw [hdef, finalizeFlow_of_invalid _ hst] at h1 h2
      rcases hr with hr | hr
      · exact absurd hr h1
      · exact absurd hr h2

theorem c6_totals_and_order_witness :
    (process_single_flow "k" "flow_000001" [c3syn, c3good, c3fin]).totalPackets
        = [c3syn, c3good, c3fin].length
  ∧ (process_single_flow "k" "flow_000001" [c3syn, c3good, c3fin]).totalBytes
        = ([c3syn, c3good, c3fin].map lengthOrZero).sum
  ∧ (∃ rest, sortPackets [c3syn, c3good, c3fin]
        = (process_single_flow "k" "flow_000001" [c3syn, c3good, c3fin]).packets ++ rest)
  ∧ (process_single_flow "k" "flow_000001" [c3syn, c3good, c3fin]).packets.Pairwise TsLe
  ∧ ((process_single_flow "k" "flow_000001" [c3syn, c3good, c3fin]).invalidReason
        ≠ some "invalid_synack" →
     (process_single_flow "k" "flow_000001" [c3syn, c3good, c3fin]).invalidReason
        ≠ some "invalid_ack" →
     (process_single_flow "k" "flow_000001" [c3syn, c3good, c3fin]).packets
        = sortPackets [c3syn, c3good, c3fin]) :=
  c6_totals_and_order "k" "flow_000001" [c3syn, c3good, c3fin]

/-- Packets of the C7 counterexample: the same connection sends SYN, a
SYN+ACK with a wrong ack number, and an RST; all are TCP and guard-passing. -/
def c7syn : Packet := ⟨0, "10.0.0.1", "10.0.0.2", 1000, 80, 2, 100, 0, 0, some 6⟩

def c7bad : Packet := ⟨1, "10.0.0.2", "10.0.0.1", 80, 1000, 18, 200, 999, 0, some 6⟩

def c7rst : Packet := ⟨2, "10.0.0.1", "10.0.0.2", 1000, 80, 4, 0, 0, 0, some 6⟩

/-- C7 counterexample: after the mid-handshake `break`, the RST packet that
arrived (and closed the connection) is stored in NO finalized flow's packet
list — a TCP packet absent from all flows, refuting the claim that every
arrived TCP packet appears in exactly one flow's stored packet list. -/
theorem c7_lost_packet :
    (process_tcp_data_chunked 300 [[c7syn, c7bad, c7rst]]).length = 1
  ∧ c7rst ∉ ((process_tcp_data_chunked 300 [[c7syn, c7bad, c7rst]]).map
      Flow.packets).flatten := by
  decide

/-- C7 (amended): packet accounting holds at the level of the per-flow
totals: over a finite batched stream processed to end-of-stream (including
force-completion), the sum of `totalPackets` over all finalized flows equals
the number of TCP packets that pass the connection-grouping guard (nonzero
ports, nonempty addresses) — each such packet is buffered into exactly one
connection entry and counted in exactly one flow's totals, though the stored
packet list itself may omit packets after an early handshake-validation
break, and guard-failing packets belong to no flow. -/
theorem c7_packet_accounting (timeout : Int) (batches : List (List Packet)) :
    ((process_tcp_data_chunked timeout batches).map Flow.totalPackets).sum
      = ((batches.flatten.filter isTCP).filter guardPass).length := by
  unfold process_tcp_data_chunked runIncremental
  dsimp only
  rw [List.map_append, List.sum_append]
  obtain ⟨h1, h2⟩ := batches_foldl_spec timeout batches [] [] 0 (by simp)
  have hforced : ((List.map (fun kv => process_single_flow kv.1 kv.2.flow_id kv.2.packets)
      (batches.foldl (batchStep timeout) ([], [], 0)).2.1).map Flow.totalPackets).sum
      = bufCount (batches.foldl (batchStep timeout) ([], [], 0)).2.1 := by
    rw [List.map_map, bufCount]
    congr 1
    apply List.map_congr_left
    intro kv _
    show (process_single_flow kv.1 kv.2.flow_id kv.2.packets).totalPackets = _
    exact process_totalPackets _ _ _
  rw [hforced, ← countP_batches_eq]
  simpa [bufCount] using h2

/-- C8: connection keying is commutative — the canonical key computed from
source (A,pA) and destination (B,pB) equals the key computed from the
swapped pair, and it is the lexicographically smaller of the two directional
strings (it is one of them, and neither directional string is strictly
smaller than it under the code-point ordering Python's `<` uses). -/
theorem c8_connection_key_commutative (A B : String) (pA pB : Int) :
    connKeyOf A pA B pB = connKeyOf B pB A pA
  ∧ (connKeyOf A pA B pB = A ++ ":" ++ toString pA ++ "-" ++ B ++ ":" ++ toString pB ∨
     connKeyOf A pA B pB = B ++ ":" ++ toString pB ++ "-" ++ A ++ ":" ++ toString pA)
  ∧ strLt (A ++ ":" ++ toString pA ++ "-" ++ B ++ ":" ++ toString pB)
      (connKeyOf A pA B pB) = false
  ∧ strLt (B ++ ":" ++ toString pB ++ "-" ++ A ++ ":" ++ toString pA)
      (connKeyOf A pA B pB) = false := by
  unfold connKeyOf
  simp only []
  by_cases h : strLt (A ++ ":" ++ toString pA ++ "-" ++ B ++ ":" ++ toString pB)
      (B ++ ":" ++ toString pB ++ "-" ++ A ++ ":" ++ toString pA) = true
  · have h' := strLt_asymm _ _ h
    rw [if_pos h, if_neg (by simp [h'])]
    exact ⟨rfl, Or.inl rfl, strLt_irrefl _, h'⟩
  · have h0 : strLt (A ++ ":" ++ toString pA ++ "-" ++ B ++ ":" ++ toString pB)
        (B ++ ":" ++ toString pB ++ "-" ++ A ++ ":" ++ toString pA) = false := by
      simpa using h
    rw [if_neg (by simp [h0])]
    by_cases h2 : strLt (B ++ ":" ++ toString pB ++ "-" ++ A ++ ":" ++ toString pA)
        (A ++ ":" ++ toString pA ++ "-" ++ B ++ ":" ++ toString pB) = true
    · rw [if_pos h2]
      exact ⟨rfl, Or.inr rfl, h0, strLt_irrefl _⟩
    · have h2' : strLt (B ++ ":" ++ toString pB ++ "-" ++ A ++ ":" ++ toString pA)
          (A ++ ":" ++ toString pA ++ "-" ++ B ++ ":" ++ toString pB) = false := by
        simpa using h2
      rw [if_neg (by simp [h2'])]
      exact ⟨strLt_antisymm _ _ h2' h0, Or.inr rfl, h0, strLt_irrefl _⟩

/-- A CSV row whose timestamp cell is a non-numeric string, with every other
field well-formed. -/
def c9badRow : Row :=
  ⟨.malformed "oops", "10.0.0.1", "10.0.0.2", .num 1000, .num 80, .num 16,
    .num 0, .num 0, .num 0, .num 6⟩

/-- C9 counterexample: a row whose timestamp is malformed is DROPPED from the
stream by the timestamp-cleaning filter (lines 944-947) instead of having
zero substituted — the packet is excluded, refuting the claim that no packet
is excluded because a field was malformed. -/
theorem c9_malformed_timestamp_drops_row :
    chunkRecords [c9badRow] = [] ∧ [c9badRow].length = 1 := by
  decide

/-- C9 (amended): rows with a numeric timestamp are never excluded; within
such a row a malformed or missing port or flag field degrades to the default
zero via `_safe_int` and the packet continues through the stream.  (Rows
whose timestamp itself is missing or non-numeric are dropped entirely — see
the counterexample.) -/
theorem c9_field_defaults (rows : List Row) (r : Row) (hmem : r ∈ rows)
    (hts : isNumericField r.timestamp = true) :
    rowToRecord r ∈ chunkRecords rows
  ∧ (isNumericField r.src_port = false → (rowToRecord r).src_port = 0)
  ∧ (isNumericField r.dst_port = false → (rowToRecord r).dst_port = 0)
  ∧ (isNumericField r.flags = false → (rowToRecord r).flags = 0) := by
  refine ⟨?_, ?_, ?_, ?_⟩
  · unfold chunkRecords cleanTimestamps
    exact List.mem_map_of_mem rowToRecord (List.mem_filter.mpr ⟨hmem, hts⟩)
  · intro h
    show safe_int r.src_port 0 = 0
    cases hv : r.src_port
    · rfl
    · rfl
    · rw [hv] at h; exact Bool.noConfusion h
  · intro h
    show (safe_int r.dst_port 0 : Int) = 0
    cases hv : r.dst_port
    · rfl
    · rfl
    · rw [hv] at h; exact Bool.noConfusion h
  · intro h
    show (safe_int r.flags 0).toNat = 0
    cases hv : r.flags
    · rfl
    · rfl
    · rw [hv] at h; exact Bool.noConfusion h

/-- A CSV row with a numeric timestamp, a malformed source port and a
missing flag cell. -/
def c9okRow : Row :=
  ⟨.num 5, "10.0.0.1", "10.0.0.2", .malformed "p", .num 80, .missing,
    .num 0, .num 0, .num 0, .num 6⟩

theorem c9_field_defaults_witness :
    rowToRecord c9okRow ∈ chunkRecords [c9okRow]
  ∧ (isNumericField c9okRow.src_port = false → (rowToRecord c9okRow).src_port = 0)
  ∧ (isNumericField c9okRow.dst_port = false → (rowToRecord c9okRow).dst_port = 0)
  ∧ (isNumericField c9okRow.flags = false → (rowToRecord c9okRow).flags = 0) :=
  c9_field_defaults [c9okRow] c9okRow (by decide) (by decide)

/-- C10 counterexample: for records at t=0 and t=100 with 100 bins, the last
bin is the half-open `[99, 100)`, so the record at the maximum timestamp is
counted in no bin and the bin counts sum to 1, not to the number of records
(2) — refuting the claim that every observed timestamp is counted in exactly
one bin and that the counts sum to the record count. -/
theorem c10_max_uncounted :
    ((generate_time_bins [⟨0⟩, ⟨100⟩] 100).map TimeBin.count).sum = 1
  ∧ [(⟨0⟩ : TsRecord), ⟨100⟩].length = 2 := by
  decide

/-- C10 (amended): for a record list whose observed range is non-degenerate,
`generate_time_bins` produces exactly `num_bins` bins; every observed
timestamp strictly below the maximum falls in exactly one bin's half-open
window, records at the maximum fall in none, and the bin counts sum to the
number of records with timestamp strictly below the maximum. -/
theorem c10_bin_partition (records : List TsRecord) (nb : Nat)
    (hnb : 0 < nb)
    (hlt : tsMinL (records.map TsRecord.timestamp)
      < tsMaxL (records.map TsRecord.timestamp)) :
    (generate_time_bins records nb).length = nb
  ∧ ((generate_time_bins records nb).map TimeBin.count).sum
      = (records.map TsRecord.timestamp).countP
          (fun t => decide (t < tsMaxL (records.map TsRecord.timestamp)))
  ∧ (∀ t ∈ records.map TsRecord.timestamp,
      ((List.range nb).filter (fun i => binContains
          (tsMinL (records.map TsRecord.timestamp))
          (tsMaxL (records.map TsRecord.timestamp)) nb i t)).length
        = if t < tsMaxL (records.map TsRecord.timestamp) then 1 else 0) := by
  have hne : records.isEmpty = false := by
    cases records with
    | nil => simp [tsMinL, tsMaxL] at hlt
    | cons r rs => rfl
  have hneq : ((tsMinL (records.map TsRecord.timestamp)
      == tsMaxL (records.map TsRecord.timestamp)) = true) → False := by
    intro habs
    rw [beq_iff_eq] at habs
    omega
  have hbins : generate_time_bins records nb
      = (List.range nb).map fun i =>
        ⟨i, truncQ (binStart (tsMinL (records.map TsRecord.timestamp))
              (tsMaxL (records.map TsRecord.timestamp)) nb i),
         truncQ (binStart (tsMinL (records.map TsRecord.timestamp))
              (tsMaxL (records.map TsRecord.timestamp)) nb (i + 1)),
         (records.map TsRecord.timestamp).countP
           (fun t => binContains (tsMinL (records.map TsRecord.timestamp))
              (tsMaxL (records.map TsRecord.timestamp)) nb i t)⟩ := by
    unfold generate_time_bins
    simp only []
    rw [if_neg (by simp [hne]), if_neg hneq]
  have hpointwise : ∀ t ∈ records.map TsRecord.timestamp,
      ((List.range nb).filter (fun i => binContains
          (tsMinL (records.map TsRecord.timestamp))
          (tsMaxL (records.map TsRecord.timestamp)) nb i t)).length
        = if t < tsMaxL (records.map TsRecord.timestamp) then 1 else 0 := by
    intro t ht
    exact range_filter_binContains _ _ nb hnb hlt t (tsMinL_le ht) (le_tsMaxL ht)
  refine ⟨by rw [hbins]; simp, ?_, hpointwise⟩
  rw [hbins, List.map_map]
  have hcounts : ((List.range nb).map (fun i =>
      (records.map TsRecord.timestamp).countP
        (fun t => binContains (tsMinL (records.map TsRecord.timestamp))
          (tsMaxL (records.map TsRecord.timestamp)) nb i t))).sum
      = ((records.map TsRecord.timestamp).map
          (fun t => ((List.range nb).filter (fun i => binContains
            (tsMinL (records.map TsRecord.timestamp))
            (tsMaxL (records.map TsRecord.timestamp)) nb i t)).length)).sum :=
    sum_countP_swap nb _ (records.map TsRecord.timestamp)
  have hmapped : ((records.map TsRecord.timestamp).map
        (fun t => ((List.range nb).filter (fun i => binContains
          (tsMinL (records.map TsRecord.timestamp))
          (tsMaxL (records.map TsRecord.timestamp)) nb i t)).length)).sum
      = ((records.map TsRecord.timestamp).map
          (fun t => if t < tsMaxL (records.map TsRecord.timestamp)
            then (1:Nat) else 0)).sum := by
    congr 1
    exact List.map_congr_left hpointwise
  have hfinal : ((records.map TsRecord.timestamp).map
        (fun t => if t < tsMaxL (records.map TsRecord.timestamp)
          then (1:Nat) else 0)).sum
      = (records.map TsRecord.timestamp).countP
          (fun t => decide (t < tsMaxL (records.map TsRecord.timestamp))) :=
    sum_ite_lt (tsMaxL (records.map TsRecord.timestamp)) (records.map TsRecord.timestamp)
  calc ((List.range nb).map (fun i => TimeBin.count (⟨i, _, _,
        (records.map TsRecord.timestamp).countP
          (fun t => binContains (tsMinL (records.map TsRecord.timestamp))
            (tsMaxL (records.map TsRecord.timestamp)) nb i t)⟩ : TimeBin))).sum
      = ((List.range nb).map (fun i =>
          (records.map TsRecord.timestamp).countP
            (fun t => binContains (tsMinL (records.map TsRecord.timestamp))
              (tsMaxL (records.map TsRecord.timestamp)) nb i t))).sum := rfl
    _ = _ := by rw [hcounts, hmapped, hfinal]

theorem c10_bin_partition_witness :
    (generate_time_bins [⟨0⟩, ⟨10⟩] 100).length = 100
  ∧ ((generate_time_bins [⟨0⟩, ⟨10⟩] 100).map TimeBin.count).sum
      = ([(⟨0⟩:TsRecord), ⟨10⟩].map TsRecord.timestamp).countP
          (fun t => decide (t < tsMaxL ([(⟨0⟩:TsRecord), ⟨10⟩].map TsRecord.timestamp)))
  ∧ (∀ t ∈ [(⟨0⟩:TsRecord), ⟨10⟩].map TsRecord.timestamp,
      ((List.range 100).filter (fun i => binContains
          (tsMinL ([(⟨0⟩:TsRecord), ⟨10⟩].map TsRecord.timestamp))
          (tsMaxL ([(⟨0⟩:TsRecord), ⟨10⟩].map TsRecord.timestamp)) 100 i t)).length
        = if t < tsMaxL ([(⟨0⟩:TsRecord), ⟨10⟩].map TsRecord.timestamp)
          then 1 else 0) :=
  c10_bin_partition [⟨0⟩, ⟨10⟩] 100 (by decide) (by decide)

end TCP
